import Mathlib

/-!
Shallow embedding of the formula-validator pipeline (ANTLR generation):
the evaluator `EvalVisitor` and symbol collector
(backend/FormulaValidator/Services/Visitors/EvalVisitor.cs), the unit
resolver (backend/FormulaValidator/Services/UnitResolver.cs), and the
validation orchestrator `FormulaValidationService.ValidateFormula`
together with `BuildMeasuredLookup`, `NormalizeVariableId` and
`MergeConstants` (the ANTLR-based service).

Modelling conventions:
  * IEEE doubles are modelled by the type `D`: a finite rational, NaN,
    +infinity or -infinity.  All arithmetic the verified claims touch is
    exact on doubles (small integers, powers of two, exact decimal
    literals), so the rational model computes the same values the C#
    code does at every input a theorem mentions.
  * C# `Dictionary<string, T>(StringComparer.OrdinalIgnoreCase)` is
    modelled by an association list with case-insensitive key lookup;
    `dict[k] = v` keeps the first-inserted key casing and replaces the
    value, which `insertCI` mirrors.
  * Exceptions (`InvalidOperationException` carrying a message, caught
    by the orchestrator) are modelled by `Except String`.
-/

namespace FormulaValidator

/-- ASCII lower-casing of one character (ordinal case folding; identifiers
and unit aliases are ASCII). -/
def lowerChar (c : Char) : Char :=
  if 65 ≤ c.toNat ∧ c.toNat ≤ 90 then Char.ofNat (c.toNat + 32) else c

/-- Ordinal lower-casing of a string. -/
def lowerStr (s : String) : String := String.mk (s.toList.map lowerChar)

/-- `string.Trim()`: strip leading and trailing whitespace. -/
def trimStr (s : String) : String :=
  String.mk (((s.toList.dropWhile Char.isWhitespace).reverse.dropWhile Char.isWhitespace).reverse)

/-- `string.StartsWith(c)` for a one-character prefix (ordinal). -/
def startsWithChar (s : String) (c : Char) : Bool :=
  match s.toList with
  | [] => false
  | a :: _ => a == c

/-- Case-insensitive key equality, modelling `StringComparer.OrdinalIgnoreCase`
(ordinal case folding; identifiers are ASCII). -/
def keyEq (a b : String) : Bool := lowerStr a == lowerStr b

/-- Case-insensitive lookup in an association list, modelling
`Dictionary.TryGetValue` under `OrdinalIgnoreCase`. -/
def lookupCI {α : Type} (l : List (String × α)) (k : String) : Option α :=
  (l.find? (fun p => keyEq p.1 k)).map (fun p => p.2)

/-- `dict[k] = v` on an `OrdinalIgnoreCase` dictionary: replaces the value of
an existing (case-insensitively equal) key, keeping its stored casing,
otherwise appends the new binding. -/
def insertCI {α : Type} (l : List (String × α)) (k : String) (v : α) :
    List (String × α) :=
  if (l.find? (fun p => keyEq p.1 k)).isSome then
    l.map (fun p => if keyEq p.1 k then (p.1, v) else p)
  else
    l ++ [(k, v)]

/-- `string.IsNullOrWhiteSpace` for a non-null string: every character is
whitespace (an empty string included). -/
def isNullOrWhiteSpace (s : String) : Bool := s.toList.all Char.isWhitespace

/-- The double model: a finite value is an exact rational; NaN and the two
infinities are the IEEE special values the pipeline inspects. -/
inductive D where
  | fin (q : ℚ)
  | nan
  | pinf
  | ninf
deriving DecidableEq, Repr

/-- `double.IsNaN`. -/
def D.isNaN : D → Bool
  | .nan => true
  | _ => false

/-- `double.IsInfinity`. -/
def D.isInfinity : D → Bool
  | .pinf => true
  | .ninf => true
  | _ => false

/-- IEEE subtraction on the double model (exact on finite values; the
claims only evaluate it where IEEE subtraction is itself exact). -/
def D.sub : D → D → D
  | .fin a, .fin b => .fin (a - b)
  | .fin _, .pinf => .ninf
  | .fin _, .ninf => .pinf
  | .pinf, .fin _ => .pinf
  | .ninf, .fin _ => .ninf
  | .pinf, .ninf => .pinf
  | .ninf, .pinf => .ninf
  | .pinf, .pinf => .nan
  | .ninf, .ninf => .nan
  | .nan, _ => .nan
  | _, .nan => .nan

/-- `Math.Abs` on the double model. -/
def D.abs : D → D
  | .fin a => .fin |a|
  | .nan => .nan
  | .pinf => .pinf
  | .ninf => .pinf

/-- IEEE `<` : any comparison with NaN is false. -/
def D.ltB : D → D → Bool
  | .fin a, .fin b => a < b
  | .fin _, .pinf => true
  | .ninf, .fin _ => true
  | .ninf, .pinf => true
  | _, _ => false

/-- IEEE `<=`. -/
def D.leB : D → D → Bool
  | .fin a, .fin b => a ≤ b
  | .fin _, .pinf => true
  | .ninf, .fin _ => true
  | .ninf, .pinf => true
  | .pinf, .pinf => true
  | .ninf, .ninf => true
  | _, _ => false

/-- IEEE `>`. -/
def D.gtB (a b : D) : Bool := D.ltB b a

/-- IEEE `>=`. -/
def D.geB (a b : D) : Bool := D.leB b a

/-- C# `double.Epsilon`: the smallest positive subnormal double, 2^(-1074).
This is NOT the machine epsilon `DBL_EPSILON` = 2^(-52). -/
def doubleEpsilonCS : ℚ := 1 / 2 ^ 1074

/-- `DBL_EPSILON`, the IEEE double machine epsilon 2^(-52), which the spec
names as the equality tolerance. -/
def machineEpsilon : ℚ := 1 / 2 ^ 52

/-- The comparison operators of the `cmp` grammar rule. -/
inductive CmpOp where
  | gt | lt | ge | le | eq | ne
deriving DecidableEq, Repr

/-- One comparison step of `EvalVisitor.VisitCmp`: the C# `switch` computing
`truth`.  Equality and inequality go through
`Math.Abs(value - rhs) < double.Epsilon` and its negation. -/
def cmpTruth (op : CmpOp) (a b : D) : Bool :=
  match op with
  | .gt => D.gtB a b
  | .lt => D.ltB a b
  | .ge => D.geB a b
  | .le => D.leB a b
  | .eq => D.ltB (D.abs (D.sub a b)) (D.fin doubleEpsilonCS)
  | .ne => D.geB (D.abs (D.sub a b)) (D.fin doubleEpsilonCS)

/-- The reduction loop of `EvalVisitor.VisitCmp`: starting from the first
operand's value, each comparator replaces the accumulator with `1.0` or
`0.0`.  With an empty tail the arithmetic value is returned unchanged. -/
def visitCmpFold (first : D) (rest : List (CmpOp × D)) : D :=
  rest.foldl (fun v p => if cmpTruth p.1 v p.2 then D.fin 1 else D.fin 0) first

/-- `Math.Pow` on the double model.  Exact for integer exponents (where the
theorems use it); a non-integer exponent generally yields an irrational
value the rational model cannot carry, and is mapped to NaN here — no
theorem of this file evaluates that branch. -/
def D.pow : D → D → D
  | .fin a, .fin b =>
    if b = 0 then .fin 1
    else if b.den = 1 then
      if a = 0 ∧ b.num < 0 then .pinf
      else .fin (a ^ b.num)
    else .nan
  | .nan, .fin b => if b = 0 then .fin 1 else .nan
  | _, .nan => .nan
  | .nan, _ => .nan
  | .pinf, .fin b => if b = 0 then .fin 1 else if 0 < b then .pinf else .fin 0
  | .ninf, .fin b =>
    if b = 0 then .fin 1
    else if 0 < b then (if b.den = 1 ∧ Odd b.num then .ninf else .pinf)
    else .fin 0
  | .fin a, .pinf => if |a| < 1 then .fin 0 else if |a| = 1 then .nan else .pinf
  | .fin a, .ninf => if |a| < 1 then .pinf else if |a| = 1 then .nan else .fin 0
  | .pinf, .pinf => .pinf
  | .pinf, .ninf => .fin 0
  | .ninf, .pinf => .pinf
  | .ninf, .ninf => .fin 0

/-- The loop of `EvalVisitor.VisitPow`: a left fold of `Math.Pow` over the
chain's remaining operands (the comment in the source calls the choice
left-associative). -/
def visitPowFold (first : D) (rest : List D) : D :=
  rest.foldl D.pow first

/-- A measured value of the request envelope (`Models/FormulaModels.cs`):
`value` is the scalar form, `values` the vector form (`none` models a null
list, `some []` a present but empty one), `unit` an optional alias. -/
structure MeasuredValue where
  id : String
  nameField : String := ""
  value : Option ℚ := none
  values : Option (List ℚ) := none
  unitField : Option String := none
deriving DecidableEq, Repr

/-- A named constant of the request envelope or of the predefined set. -/
structure Constant where
  id : String
  nameField : String := ""
  value : ℚ := 0
deriving DecidableEq, Repr

/-- `hasScalar` of `BuildMeasuredLookup`: `measuredValue.Value.HasValue`. -/
def hasScalar (mv : MeasuredValue) : Bool := mv.value.isSome

/-- `hasVector` of `BuildMeasuredLookup` (and the `hasVector` test of
`EvalVisitor.VisitVarPrimary`): `Values is not null && Values.Count > 0`,
so an empty vector counts as absent. -/
def hasVector (mv : MeasuredValue) : Bool :=
  match mv.values with
  | some l => decide (0 < l.length)
  | none => false

/-- `TrimStart('$')`: drop every leading dollar sign. -/
def dropDollars (s : String) : String :=
  String.mk (s.toList.dropWhile (fun c => c == '$'))

/-- `TrimStart('#')`: drop every leading hash sign. -/
def dropHashes (s : String) : String :=
  String.mk (s.toList.dropWhile (fun c => c == '#'))

/-- `FormulaValidationService.NormalizeVariableId`: trim, and when the
result starts with `$`, strip all leading `$` and trim again. -/
def normalizeVariableId (id : String) : String :=
  let trimmed := trimStr id
  if trimmed.length = 0 then ""
  else if startsWithChar trimmed '$' then trimStr (dropDollars trimmed)
  else trimmed

/-- One measured-value lookup: keys are normalized variable ids, compared
case-insensitively. -/
abbrev MeasuredLookup := List (String × MeasuredValue)

/-- The loop body of `FormulaValidationService.BuildMeasuredLookup`,
processing the entries in request order and stopping at the first
definitional error. -/
def buildMeasuredGo (acc : MeasuredLookup) :
    List MeasuredValue → Except String MeasuredLookup
  | [] => .ok acc
  | mv :: rest =>
    let nid := normalizeVariableId mv.id
    if nid = "" then
      .error "Measured value id cannot be empty."
    else if (lookupCI acc nid).isSome then
      .error ("Duplicate variable: $" ++ nid)
    else if hasScalar mv && hasVector mv then
      .error ("Variable '$" ++ nid ++ "' cannot define both 'value' and 'values'.")
    else if !hasScalar mv && !hasVector mv then
      .error ("Variable '$" ++ nid ++ "' must define either 'value' or 'values'.")
    else
      buildMeasuredGo (insertCI acc nid mv) rest

/-- `FormulaValidationService.BuildMeasuredLookup`: either the normalized
case-insensitive lookup or the first definitional error. -/
def buildMeasuredLookup (mvs : List MeasuredValue) : Except String MeasuredLookup :=
  buildMeasuredGo [] mvs

/-- `FormulaValidationService.NormalizeConstantId`: trim and ensure a
leading `#`. -/
def normalizeConstantId (id : String) : String :=
  let trimmed := trimStr id
  if startsWithChar trimmed '#' then trimmed else "#" ++ trimmed

/-- A constant lookup keyed (case-insensitively) by the id with its leading
hashes stripped. -/
abbrev ConstantLookup := List (String × Constant)

/-- `AddOrReplace` inside `FormulaValidationService.MergeConstants`: skip an
id normalizing to the bare `#`, otherwise bind the hash-stripped key to a
rebuilt constant — replacing any constant already there. -/
def addOrReplace (l : ConstantLookup) (c : Constant) : ConstantLookup :=
  let nid := normalizeConstantId c.id
  if nid = "#" then l
  else insertCI l (dropHashes nid)
    { id := nid, nameField := c.nameField, value := c.value }

/-- `FormulaValidationService.MergeConstants`: fold the predefined constants
first and the request-supplied overrides after them, so an override wins on
a normalized id collision. -/
def mergeConstants (base overrides : List Constant) : ConstantLookup :=
  overrides.foldl addOrReplace (base.foldl addOrReplace [])

/-- The output of `SymbolCollector`: which variables and constants the tree
references and in which modes.  The C# sets are `OrdinalIgnoreCase` hash
sets; lists model one enumeration order. -/
structure SymbolUsage where
  vars : List String := []
  varsWithUnit : List String := []
  varsWithIndex : List String := []
  varsWithoutIndex : List String := []
  consts : List String := []
deriving Repr

/-- Semantic check 1 of `ValidateFormula`: an undefined variable. -/
def checkUndefinedVariable (u : SymbolUsage) (L : MeasuredLookup) : Option String :=
  (u.vars.find? (fun v => (lookupCI L v).isNone)).map
    (fun v => "Undefined variable: $" ++ v)

/-- Semantic check 2: an indexed variable whose measured value has no
non-empty vector (`!TryGetValue || Values is null || Values.Count == 0`). -/
def checkScalarIndexed (u : SymbolUsage) (L : MeasuredLookup) : Option String :=
  (u.varsWithIndex.find? (fun v =>
      match lookupCI L v with
      | none => true
      | some mv => !hasVector mv)).map
    (fun v => "Variable '" ++ v ++ "' is scalar but is used with an index.")

/-- Semantic check 3: a variable used both with and without an index
(`VariablesWithoutIndex.Contains`, case-insensitive). -/
def checkMixedIndex (u : SymbolUsage) : Option String :=
  (u.varsWithIndex.find? (fun v =>
      u.varsWithoutIndex.any (fun w => keyEq w v))).map
    (fun v => "Variable '" ++ v ++ "' is used both with and without an index.")

/-- Semantic check 4: a non-indexed use of a vector variable. -/
def checkVectorNoIndex (u : SymbolUsage) (L : MeasuredLookup) : Option String :=
  (u.varsWithoutIndex.find? (fun v =>
      match lookupCI L v with
      | none => false
      | some mv => hasVector mv)).map
    (fun v => "Variable '" ++ v ++ "' is non-scalar. Use an index like '$" ++ v ++ "[i]'.")

/-- Semantic check 5: an undefined constant, against the merged lookup. -/
def checkUndefinedConstant (u : SymbolUsage) (C : ConstantLookup) : Option String :=
  (u.consts.find? (fun c => (lookupCI C c).isNone)).map
    (fun c => "Undefined constant: #" ++ c)

/-- Semantic check 6: a unit-suffixed variable whose measured value declares
no (non-whitespace) unit.  The C# loop reads `measuredLookup[variable]` with
the indexer; when the key is absent that indexer throws, but the loop only
runs after check 1 found every referenced variable defined and
`SymbolCollector` puts every unit-suffixed variable into `Variables` too, so
the absent-key branch (taken as "no failure" here) is unreachable on
collector output. -/
def checkUnitSuffixed (u : SymbolUsage) (L : MeasuredLookup) : Option String :=
  (u.varsWithUnit.find? (fun v =>
      match lookupCI L v with
      | none => false
      | some mv => isNullOrWhiteSpace (mv.unitField.getD ""))).map
    (fun v => "Variable '" ++ v ++ "' has no unit defined but is used with a unit suffix.")

/-- The six semantic checks of `ValidateFormula` (lines after symbol
collection), run in source order with the first failure returned; check 5
merges the predefined constants with the request overrides first. -/
def semanticChecks (u : SymbolUsage) (L : MeasuredLookup)
    (base overrides : List Constant) : Option String :=
  match checkUndefinedVariable u L with
  | some e => some e
  | none =>
  match checkScalarIndexed u L with
  | some e => some e
  | none =>
  match checkMixedIndex u with
  | some e => some e
  | none =>
  match checkVectorNoIndex u L with
  | some e => some e
  | none =>
  match checkUndefinedConstant u (mergeConstants base overrides) with
  | some e => some e
  | none => checkUnitSuffixed u L

/-- The response envelope (`ValidationResult`), with the defaults the
orchestrator starts from (`Source = "Backend"`, everything else unset). -/
structure ValidationResult where
  isValid : Bool := false
  error : Option String := none
  result : Option ℚ := none
  evaluatedFormula : Option String := none
  source : String := "Backend"
deriving DecidableEq, Repr

/-- The tail of `ValidateFormula` on the evaluated value: NaN and infinity
fail with their catalogued messages, a finite value succeeds carrying the
trimmed input as the evaluated formula. -/
def finishValue (input : String) : D → ValidationResult
  | .nan => { error := some "Result is not a real number (NaN)" }
  | .pinf => { error := some "Result is infinity - division by zero or overflow" }
  | .ninf => { error := some "Result is infinity - division by zero or overflow" }
  | .fin q => { isValid := true, result := some q, evaluatedFormula := some input }

/-- The post-parse pipeline of `ValidateFormula`: build the measured lookup,
run the semantic checks, then inspect the evaluator's outcome (a thrown
`InvalidOperationException` is the `Except.error` case).  `input` is the
trimmed formula text and `u` the symbol collector's output for the parsed
tree. -/
def runPipeline (input : String) (u : SymbolUsage) (mvs : List MeasuredValue)
    (base overrides : List Constant) (evalOutcome : Except String D) :
    ValidationResult :=
  match buildMeasuredLookup mvs with
  | .error e => { error := some e }
  | .ok lookup =>
    match semanticChecks u lookup base overrides with
    | some e => { error := some e }
    | none =>
      match evalOutcome with
      | .error e => { error := some e }
      | .ok v => finishValue input v

/-- `ValidateFormula` from the top: the emptiness check, the trim, the parse
(its residual outcome a parameter: the ANTLR parser and listener are outside
this embedding's claims), then `runPipeline` on the trimmed input. -/
def validateFormula (formula : String) (parseOutcome : Option String)
    (u : SymbolUsage) (mvs : List MeasuredValue) (base overrides : List Constant)
    (evalOutcome : Except String D) : ValidationResult :=
  if isNullOrWhiteSpace formula then { error := some "Formula cannot be empty" }
  else
    match parseOutcome with
    | some e => { error := some e }
    | none => runPipeline (trimStr formula) u mvs base overrides evalOutcome

/-! ## Unit resolver (`Services/UnitResolver.cs`)

The alias tables are transcribed from the C# dictionaries.  The conversion
itself is delegated by the source to the external UnitsNet library; it is
modelled here by `linearAs` / `temperatureAs`: UnitsNet's generated `As`
returns the stored value unchanged when the source and target units are
equal, and otherwise converts through the category's base unit (linearly
for every category below except temperature, which is affine). -/

inductive LengthU where
  | meter | centimeter | millimeter | kilometer | mile | yard | foot | inch | astronomicalUnit
deriving DecidableEq, Repr

inductive MassU where
  | kilogram | gram
deriving DecidableEq, Repr

inductive DurationU where
  | second | millisecond | minute | hour
deriving DecidableEq, Repr

inductive TemperatureU where
  | kelvin | celsius | fahrenheit
deriving DecidableEq, Repr

inductive VolumeU where
  | liter | milliliter
deriving DecidableEq, Repr

inductive PressureU where
  | pascalU | bar
deriving DecidableEq, Repr

/-- A one-unit category (ampere, volt, ohm, newton, joule, watt). -/
inductive SingleU where
  | only
deriving DecidableEq, Repr

/-- Meters per unit. -/
def lengthFactor : LengthU → ℚ
  | .meter => 1
  | .centimeter => 1 / 100
  | .millimeter => 1 / 1000
  | .kilometer => 1000
  | .mile => 1609344 / 1000
  | .yard => 9144 / 10000
  | .foot => 3048 / 10000
  | .inch => 254 / 10000
  | .astronomicalUnit => 149597870700

/-- Kilograms per unit. -/
def massFactor : MassU → ℚ
  | .kilogram => 1
  | .gram => 1 / 1000

/-- Seconds per unit. -/
def durationFactor : DurationU → ℚ
  | .second => 1
  | .millisecond => 1 / 1000
  | .minute => 60
  | .hour => 3600

/-- Liters per unit. -/
def volumeFactor : VolumeU → ℚ
  | .liter => 1
  | .milliliter => 1 / 1000

/-- Pascals per unit. -/
def pressureFactor : PressureU → ℚ
  | .pascalU => 1
  | .bar => 100000

/-- UnitsNet `Quantity.As` for a linear (ratio) category: the identity on
equal units, otherwise conversion through the base unit. -/
def linearAs {U : Type} [DecidableEq U] (factor : U → ℚ) (v : ℚ) (fromU toU : U) : ℚ :=
  if fromU = toU then v else v * factor fromU / factor toU

/-- Degrees to kelvins. -/
def toKelvin (v : ℚ) : TemperatureU → ℚ
  | .kelvin => v
  | .celsius => v + 27315 / 100
  | .fahrenheit => (v - 32) * 5 / 9 + 27315 / 100

/-- Kelvins to degrees. -/
def fromKelvin (k : ℚ) : TemperatureU → ℚ
  | .kelvin => k
  | .celsius => k - 27315 / 100
  | .fahrenheit => (k - 27315 / 100) * 9 / 5 + 32

/-- UnitsNet `Quantity.As` for the affine temperature category. -/
def temperatureAs (v : ℚ) (fromU toU : TemperatureU) : ℚ :=
  if fromU = toU then v else fromKelvin (toKelvin v fromU) toU

/-- `UnitResolver.LengthAliases`. -/
def lengthAliases : List (String × LengthU) :=
  [("m", .meter), ("meter", .meter), ("metre", .meter), ("meters", .meter),
   ("cm", .centimeter), ("centimeter", .centimeter), ("centimetre", .centimeter),
   ("mm", .millimeter), ("millimeter", .millimeter), ("millimetre", .millimeter),
   ("km", .kilometer), ("kilometer", .kilometer), ("kilometre", .kilometer),
   ("kilometers", .kilometer),
   ("mi", .mile), ("mile", .mile), ("miles", .mile),
   ("yd", .yard), ("yard", .yard), ("yards", .yard),
   ("ft", .foot), ("foot", .foot), ("feet", .foot),
   ("in", .inch), ("inch", .inch), ("inches", .inch),
   ("au", .astronomicalUnit), ("astronomical", .astronomicalUnit),
   ("astronomical_unit", .astronomicalUnit), ("astronomicalunit", .astronomicalUnit)]

/-- `UnitResolver.MassAliases`. -/
def massAliases : List (String × MassU) :=
  [("kg", .kilogram), ("kilogram", .kilogram),
   ("g", .gram), ("gram", .gram), ("grams", .gram)]

/-- `UnitResolver.DurationAliases`. -/
def durationAliases : List (String × DurationU) :=
  [("s", .second), ("sec", .second), ("second", .second), ("seconds", .second),
   ("ms", .millisecond), ("millisecond", .millisecond), ("milliseconds", .millisecond),
   ("min", .minute), ("minute", .minute), ("minutes", .minute),
   ("h", .hour), ("hr", .hour), ("hour", .hour), ("hours", .hour)]

/-- `UnitResolver.TemperatureAliases`. -/
def temperatureAliases : List (String × TemperatureU) :=
  [("k", .kelvin), ("kelvin", .kelvin),
   ("c", .celsius), ("celsius", .celsius),
   ("f", .fahrenheit), ("fahrenheit", .fahrenheit)]

/-- `UnitResolver.ElectricCurrentAliases`. -/
def electricCurrentAliases : List (String × SingleU) :=
  [("a", .only), ("ampere", .only), ("amp", .only)]

/-- `UnitResolver.ElectricPotentialAliases`. -/
def electricPotentialAliases : List (String × SingleU) :=
  [("v", .only), ("volt", .only), ("volts", .only)]

/-- `UnitResolver.ElectricResistanceAliases` (the second alias is the
source's mojibake rendering of the ohm sign). -/
def electricResistanceAliases : List (String × SingleU) :=
  [("ohm", .only), ("Î©", .only)]

/-- `UnitResolver.VolumeAliases`. -/
def volumeAliases : List (String × VolumeU) :=
  [("l", .liter), ("liter", .liter), ("litre", .liter),
   ("ml", .milliliter), ("milliliter", .milliliter), ("millilitre", .milliliter)]

/-- `UnitResolver.PressureAliases`. -/
def pressureAliases : List (String × PressureU) :=
  [("pa", .pascalU), ("pascal", .pascalU), ("bar", .bar)]

/-- `UnitResolver.ForceAliases`. -/
def forceAliases : List (String × SingleU) :=
  [("n", .only), ("newton", .only), ("newtons", .only)]

/-- `UnitResolver.EnergyAliases`. -/
def energyAliases : List (String × SingleU) :=
  [("j", .only), ("joule", .only), ("joules", .only)]

/-- `UnitResolver.PowerAliases`. -/
def powerAliases : List (String × SingleU) :=
  [("w", .only), ("watt", .only), ("watts", .only)]

/-- One `TryConvertX` helper of `UnitResolver`: both aliases must be in the
category's table, then the category's `As` conversion runs. -/
def catConvert {U : Type} [DecidableEq U] (aliases : List (String × U))
    (asF : ℚ → U → U → ℚ) (v : ℚ) (fromS toS : String) : Option ℚ :=
  match lookupCI aliases fromS, lookupCI aliases toS with
  | some fu, some tu => some (asF v fu tu)
  | _, _ => none

/-- `UnitResolver.TryConvert`: whitespace aliases fail at once; the category
converters are tried in source order; a final textual (case-insensitive)
self-comparison of the trimmed aliases lets an unknown unit pass through
unchanged. -/
def tryConvert (v : ℚ) (fromUnit toUnit : String) : Option ℚ :=
  if isNullOrWhiteSpace fromUnit || isNullOrWhiteSpace toUnit then none
  else
    let f := trimStr fromUnit
    let t := trimStr toUnit
    (catConvert lengthAliases (linearAs lengthFactor) v f t).orElse fun _ =>
    (catConvert massAliases (linearAs massFactor) v f t).orElse fun _ =>
    (catConvert durationAliases (linearAs durationFactor) v f t).orElse fun _ =>
    (catConvert temperatureAliases temperatureAs v f t).orElse fun _ =>
    (catConvert electricCurrentAliases (linearAs fun _ => 1) v f t).orElse fun _ =>
    (catConvert electricPotentialAliases (linearAs fun _ => 1) v f t).orElse fun _ =>
    (catConvert electricResistanceAliases (linearAs fun _ => 1) v f t).orElse fun _ =>
    (catConvert volumeAliases (linearAs volumeFactor) v f t).orElse fun _ =>
    (catConvert pressureAliases (linearAs pressureFactor) v f t).orElse fun _ =>
    (catConvert forceAliases (linearAs fun _ => 1) v f t).orElse fun _ =>
    (catConvert energyAliases (linearAs fun _ => 1) v f t).orElse fun _ =>
    (catConvert powerAliases (linearAs fun _ => 1) v f t).orElse fun _ =>
    (if keyEq f t then some v else none)

/-! ## `EvalVisitor.VisitVarPrimary` and `NormalizeIndex` -/

/-- C# `Math.Round(double)`: round half to even (banker's rounding). -/
def roundHalfEven (q : ℚ) : ℤ :=
  let f := ⌊q⌋
  let r := q - f
  if r < 1 / 2 then f
  else if 1 / 2 < r then f + 1
  else if Even f then f else f + 1

/-- The integer-closeness tolerance of `NormalizeIndex`. -/
def indexTolerance : ℚ := 1 / 10 ^ 9

/-- `int.MaxValue`. -/
def intMaxValue : ℤ := 2147483647

/-- `int.MinValue`. -/
def intMinValue : ℤ := -2147483648

/-- The unchecked C# double-to-int conversion `(int)d` applied to the
(integral, finite) result of `Math.Round`: .NET saturates an out-of-range
value to `int.MaxValue` / `int.MinValue`.  (NaN would convert to 0, but
`NormalizeIndex` rejects NaN before the cast.) -/
def castToInt (x : ℤ) : ℤ :=
  if intMaxValue < x then intMaxValue
  else if x < intMinValue then intMinValue
  else x

/-- `EvalVisitor.NormalizeIndex`: reject NaN and infinity, round half to
even and convert to `int` (saturating), reject a value farther than `1e-9`
from that int, reject a negative int, else return it. -/
def normalizeIndex (raw : D) (variableName : String) : Except String ℤ :=
  match raw with
  | .nan | .pinf | .ninf =>
    .error ("Index for variable '" ++ variableName ++ "' must evaluate to a finite number.")
  | .fin q =>
    let rounded := castToInt (roundHalfEven q)
    if indexTolerance < |q - (rounded : ℚ)| then
      .error ("Index for variable '" ++ variableName ++ "' must be an integer.")
    else if rounded < 0 then
      .error ("Index for variable '" ++ variableName ++ "' must be non-negative.")
    else .ok rounded

/-- One suffix of a variable reference as the evaluator's loop sees it: an
index suffix carries the outcome of `Visit`ing its expression (forced only
when the loop reaches it), a unit tag carries its identifier text. -/
inductive SuffixVal where
  | idx (ev : Except String D)
  | unitTag (u : String)

/-- The suffix loop of `EvalVisitor.VisitVarPrimary`: a second index suffix
throws before its expression is visited; a unit tag simply overwrites the
requested unit. -/
def collectSuffixes (variableName : String) :
    List SuffixVal → Option ℤ × Option String → Except String (Option ℤ × Option String)
  | [], st => .ok st
  | .idx ev :: rest, st =>
    match st.1 with
    | some _ =>
      .error ("Variable '" ++ variableName ++
        "' is used with multiple indices; only one dimension is supported.")
    | none => do
      let raw ← ev
      let i ← normalizeIndex raw variableName
      collectSuffixes variableName rest (some i, st.2)
  | .unitTag u :: rest, st => collectSuffixes variableName rest (st.1, some u)

/-- The unit tail of `VisitVarPrimary`: without a requested unit the
extracted value passes through; with one, the measured value must declare a
non-whitespace unit and the resolver must accept the pair. -/
def applyUnit (mv : MeasuredValue) (variableName : String) (extracted : ℚ)
    (requestedUnit : Option String) : Except String D :=
  match requestedUnit with
  | none => .ok (.fin extracted)
  | some u =>
    let fromUnit := trimStr (mv.unitField.getD "")
    if isNullOrWhiteSpace fromUnit then
      .error ("Variable '" ++ variableName ++ "' has no unit defined but is used with '." ++ u ++ "'.")
    else
      match tryConvert extracted fromUnit u with
      | some converted => .ok (.fin converted)
      | none =>
        .error ("Cannot convert variable '" ++ variableName ++ "' from '" ++
          fromUnit ++ "' to '" ++ u ++ "'.")

/-- `EvalVisitor.VisitVarPrimary`: resolve the name, collect the suffixes,
extract the scalar or the indexed vector element, then apply the unit tag. -/
def visitVarPrimary (measured : MeasuredLookup) (variableName : String)
    (sfx : List SuffixVal) : Except String D :=
  match lookupCI measured variableName with
  | none => .error ("Undefined variable: $" ++ variableName)
  | some mv => do
    let (requestedIndex, requestedUnit) ← collectSuffixes variableName sfx (none, none)
    if hasVector mv then
      match requestedIndex with
      | none =>
        .error ("Variable '" ++ variableName ++ "' is non-scalar. Use an index like '$" ++
          variableName ++ "[i]'.")
      | some i =>
        let vals := mv.values.getD []
        if (vals.length : ℤ) ≤ i then
          .error ("Index " ++ toString i ++ " is out of range for variable '" ++
            variableName ++ "'.")
        else applyUnit mv variableName (vals.getD i.toNat 0) requestedUnit
    else
      match mv.value with
      | none => .error ("Variable '" ++ variableName ++ "' has no value defined.")
      | some q =>
        match requestedIndex with
        | some _ =>
          .error ("Variable '" ++ variableName ++ "' is scalar but used with an index.")
        | none => applyUnit mv variableName q requestedUnit

/-- `EvalVisitor.VisitConstPrimary`: look the constant up by its (already
hash-stripped) key. -/
def visitConstPrimary (constants : ConstantLookup) (constName : String) :
    Except String D :=
  match lookupCI constants constName with
  | none => .error ("Undefined constant: #" ++ constName)
  | some c => .ok (.fin c.value)

/-! ## Lexer and grammar (`Parsing/Formula.g4`)

Two grammar variants are embedded behind the `ext` flag:
  * `ext = false` is the `Formula.g4` committed in the repository, whose
    `varRef` rule is `DOLLAR IDENT (DOT IDENT)?` and whose lexer has no
    bracket tokens at all;
  * `ext = true` is the grammar the rest of the repository is built
    against.  Modelled from the spec: `varRef := '$' IDENT suffix*` with
    `suffix := '.' IDENT | '[' expr ']'` — the grammar file generating the
    `FormulaParser` that `EvalVisitor`/`SymbolCollector` consume (they call
    `varRef.varRefSuffix()` and test `suffix.LBRACK()`) is not in the
    repository; the committed `Formula.g4` cannot produce that API. -/

inductive Tok where
  | num (q : ℚ)
  | ident (s : String)
  | plus | minus | star | slash | percent | caret
  | geT | leT | eqT | neT | gtT | ltT
  | lparen | rparen | comma | dot | dollar | hash
  | lbrack | rbrack
deriving DecidableEq, Repr

/-- The value of a digit run. -/
def digitsToNat (ds : List Char) : Nat :=
  ds.foldl (fun a c => a * 10 + (c.toNat - 48)) 0

/-- Split a leading digit run off a character list. -/
def splitDigits (cs : List Char) : List Char × List Char :=
  (cs.takeWhile Char.isDigit, cs.dropWhile Char.isDigit)

/-- The optional fraction of a `NUMBER` token: consumed only when a digit
follows the dot (otherwise the dot stays in the stream as `DOT`). -/
def lexFraction : List Char → List Char × List Char
  | '.' :: r =>
    match splitDigits r with
    | ([], _) => ([], '.' :: r)
    | (fs, r2) => (fs, r2)
  | r => ([], r)

/-- The optional exponent of a `NUMBER` token: `e`/`E`, an optional sign and
at least one digit; otherwise nothing is consumed.  Returns (negative sign,
exponent digits) and the rest. -/
def lexExponent : List Char → (Bool × List Char) × List Char
  | c :: r =>
    if c = 'e' ∨ c = 'E' then
      match r with
      | '+' :: r2 =>
        (match splitDigits r2 with
         | ([], _) => ((false, []), c :: r)
         | (ds, r3) => ((false, ds), r3))
      | '-' :: r2 =>
        (match splitDigits r2 with
         | ([], _) => ((false, []), c :: r)
         | (ds, r3) => ((true, ds), r3))
      | r2 =>
        (match splitDigits r2 with
         | ([], _) => ((false, []), c :: r)
         | (ds, r3) => ((false, ds), r3))
    else ((false, []), c :: r)
  | [] => ((false, []), [])

/-- The rational value of a `NUMBER` token, exact (`double.Parse` then
rounds it to the nearest double; every literal the theorems use is exactly
representable). -/
def numberValue (ip fp : List Char) (negExp : Bool) (ed : List Char) : ℚ :=
  let base : ℚ := (digitsToNat ip : ℚ) + (digitsToNat fp : ℚ) / 10 ^ fp.length
  if negExp then base / 10 ^ digitsToNat ed else base * 10 ^ digitsToNat ed

/-- The first IDENT character: `[a-zA-Z_]`. -/
def isIdentFirst (c : Char) : Bool := c.isAlpha || c = '_'

/-- A later IDENT character: `[a-zA-Z0-9_]`. -/
def isIdentRest (c : Char) : Bool := c.isAlpha || c.isDigit || c = '_'

/-- The lexer: maximal-munch tokenization of the `Formula.g4` token rules,
skipping whitespace; a character no rule matches is a lexical error.  With
`ext = false` (the committed grammar) `[` and `]` are such characters. -/
def tokenizeGo (ext : Bool) : Nat → List Char → Except String (List Tok)
  | 0, _ => .error "lexer fuel exhausted"
  | _, [] => .ok []
  | fuel + 1, c :: cs =>
    if c.isWhitespace then tokenizeGo ext fuel cs
    else if c.isDigit then
      let (ip, r1) := splitDigits (c :: cs)
      let (fp, r2) := lexFraction r1
      let ((negExp, ed), r3) := lexExponent r2
      do
        let ts ← tokenizeGo ext fuel r3
        .ok (.num (numberValue ip fp negExp ed) :: ts)
    else if isIdentFirst c then
      let nm := (c :: cs).takeWhile isIdentRest
      do
        let ts ← tokenizeGo ext fuel ((c :: cs).dropWhile isIdentRest)
        .ok (.ident (String.mk nm) :: ts)
    else if c = '>' then
      match cs with
      | '=' :: r => do let ts ← tokenizeGo ext fuel r; .ok (.geT :: ts)
      | r => do let ts ← tokenizeGo ext fuel r; .ok (.gtT :: ts)
    else if c = '<' then
      match cs with
      | '=' :: r => do let ts ← tokenizeGo ext fuel r; .ok (.leT :: ts)
      | r => do let ts ← tokenizeGo ext fuel r; .ok (.ltT :: ts)
    else if c = '=' then
      match cs with
      | '=' :: r => do let ts ← tokenizeGo ext fuel r; .ok (.eqT :: ts)
      | _ => .error "token recognition error at character 61"
    else if c = '!' then
      match cs with
      | '=' :: r => do let ts ← tokenizeGo ext fuel r; .ok (.neT :: ts)
      | _ => .error "token recognition error at character 33"
    else
      let simple : Option Tok :=
        if c = '+' then some .plus
        else if c = '-' then some .minus
        else if c = '*' then some .star
        else if c = '/' then some .slash
        else if c = '%' then some .percent
        else if c = '^' then some .caret
        else if c = '(' then some .lparen
        else if c = ')' then some .rparen
        else if c = ',' then some .comma
        else if c = '.' then some .dot
        else if c = '$' then some .dollar
        else if c = '#' then some .hash
        else if ext && c = '[' then some .lbrack
        else if ext && c = ']' then some .rbrack
        else none
      match simple with
      | some t => do let ts ← tokenizeGo ext fuel cs; .ok (t :: ts)
      | none => .error ("token recognition error at character " ++ toString c.toNat)

/-- Tokenize a formula string. -/
def tokenize (ext : Bool) (s : String) : Except String (List Tok) :=
  tokenizeGo ext (s.length + 1) s.toList

/-- The operators of the `mul` rule. -/
inductive MulOp where
  | timesOp | divOp | modOp
deriving DecidableEq, Repr

/-- The operators of the `add` rule. -/
inductive AddOp where
  | plusOp | minusOp
deriving DecidableEq, Repr

mutual
/-- The expression tree, with one chain node per precedence level exactly as
the ANTLR rule contexts expose them to the visitors (`cmp` holds its first
`add` and the comparator/operand pairs, and so on); `unary := primary` adds
no node, matching `VisitUnaryPrimary`'s pass-through. -/
inductive Expr where
  | num (q : ℚ)
  | varE (nm : String) (sfx : List Sfx)
  | constE (nm : String)
  | callE (f : String) (args : List Expr)
  | unaryPlus (e : Expr)
  | unaryMinus (e : Expr)
  | powChain (a : Expr) (rest : List Expr)
  | mulChain (a : Expr) (rest : List (MulOp × Expr))
  | addChain (a : Expr) (rest : List (AddOp × Expr))
  | cmpChain (a : Expr) (rest : List (CmpOp × Expr))

/-- A `varRefSuffix`: a unit tag or an index expression. -/
inductive Sfx where
  | unitTag (u : String)
  | index (e : Expr)
end

/-- Peek a comparison operator. -/
def cmpOpOf : List Tok → Option (CmpOp × List Tok)
  | .geT :: ts => some (.ge, ts)
  | .leT :: ts => some (.le, ts)
  | .eqT :: ts => some (.eq, ts)
  | .neT :: ts => some (.ne, ts)
  | .gtT :: ts => some (.gt, ts)
  | .ltT :: ts => some (.lt, ts)
  | _ => none

/-- Peek an additive operator. -/
def addOpOf : List Tok → Option (AddOp × List Tok)
  | .plus :: ts => some (.plusOp, ts)
  | .minus :: ts => some (.minusOp, ts)
  | _ => none

/-- Peek a multiplicative operator. -/
def mulOpOf : List Tok → Option (MulOp × List Tok)
  | .star :: ts => some (.timesOp, ts)
  | .slash :: ts => some (.divOp, ts)
  | .percent :: ts => some (.modOp, ts)
  | _ => none

mutual
/-- `expr := cmp`. -/
def pExpr (ext : Bool) : Nat → List Tok → Except String (Expr × List Tok)
  | 0, _ => .error "no fuel"
  | fuel + 1, ts => pCmp ext fuel ts

/-- `cmp := add ((GE|LE|EQ|NEQ|GT|LT) add)*`. -/
def pCmp (ext : Bool) : Nat → List Tok → Except String (Expr × List Tok)
  | 0, _ => .error "no fuel"
  | fuel + 1, ts => do
    let (a, ts1) ← pAdd ext fuel ts
    let (rest, ts2) ← pCmpRest ext fuel ts1
    .ok (.cmpChain a rest, ts2)

def pCmpRest (ext : Bool) : Nat → List Tok → Except String (List (CmpOp × Expr) × List Tok)
  | 0, _ => .error "no fuel"
  | fuel + 1, ts =>
    match cmpOpOf ts with
    | none => .ok ([], ts)
    | some (op, ts0) => do
      let (b, ts1) ← pAdd ext fuel ts0
      let (rest, ts2) ← pCmpRest ext fuel ts1
      .ok ((op, b) :: rest, ts2)

/-- `add := mul ((PLUS|MINUS) mul)*`. -/
def pAdd (ext : Bool) : Nat → List Tok → Except String (Expr × List Tok)
  | 0, _ => .error "no fuel"
  | fuel + 1, ts => do
    let (a, ts1) ← pMul ext fuel ts
    let (rest, ts2) ← pAddRest ext fuel ts1
    .ok (.addChain a rest, ts2)

def pAddRest (ext : Bool) : Nat → List Tok → Except String (List (AddOp × Expr) × List Tok)
  | 0, _ => .error "no fuel"
  | fuel + 1, ts =>
    match addOpOf ts with
    | none => .ok ([], ts)
    | some (op, ts0) => do
      let (b, ts1) ← pMul ext fuel ts0
      let (rest, ts2) ← pAddRest ext fuel ts1
      .ok ((op, b) :: rest, ts2)

/-- `mul := pow ((STAR|SLASH|PERCENT) pow)*`. -/
def pMul (ext : Bool) : Nat → List Tok → Except String (Expr × List Tok)
  | 0, _ => .error "no fuel"
  | fuel + 1, ts => do
    let (a, ts1) ← pPow ext fuel ts
    let (rest, ts2) ← pMulRest ext fuel ts1
    .ok (.mulChain a rest, ts2)

def pMulRest (ext : Bool) : Nat → List Tok → Except String (List (MulOp × Expr) × List Tok)
  | 0, _ => .error "no fuel"
  | fuel + 1, ts =>
    match mulOpOf ts with
    | none => .ok ([], ts)
    | some (op, ts0) => do
      let (b, ts1) ← pPow ext fuel ts0
      let (rest, ts2) ← pMulRest ext fuel ts1
      .ok ((op, b) :: rest, ts2)

/-- `pow := unary (POW unary)*`. -/
def pPow (ext : Bool) : Nat → List Tok → Except String (Expr × List Tok)
  | 0, _ => .error "no fuel"
  | fuel + 1, ts => do
    let (a, ts1) ← pUnary ext fuel ts
    let (rest, ts2) ← pPowRest ext fuel ts1
    .ok (.powChain a rest, ts2)

def pPowRest (ext : Bool) : Nat → List Tok → Except String (List Expr × List Tok)
  | 0, _ => .error "no fuel"
  | fuel + 1, ts =>
    match ts with
    | .caret :: ts0 => do
      let (b, ts1) ← pUnary ext fuel ts0
      let (rest, ts2) ← pPowRest ext fuel ts1
      .ok (b :: rest, ts2)
    | _ => .ok ([], ts)

/-- `unary := PLUS unary | MINUS unary | primary`. -/
def pUnary (ext : Bool) : Nat → List Tok → Except String (Expr × List Tok)
  | 0, _ => .error "no fuel"
  | fuel + 1, .plus :: ts => do
    let (e, ts1) ← pUnary ext fuel ts
    .ok (.unaryPlus e, ts1)
  | fuel + 1, .minus :: ts => do
    let (e, ts1) ← pUnary ext fuel ts
    .ok (.unaryMinus e, ts1)
  | fuel + 1, ts => pPrimary ext fuel ts

/-- `primary := NUMBER | varRef | constRef | funcCall | LPAREN expr RPAREN`. -/
def pPrimary (ext : Bool) : Nat → List Tok → Except String (Expr × List Tok)
  | 0, _ => .error "no fuel"
  | fuel + 1, .num q :: ts => .ok (.num q, ts)
  | fuel + 1, .dollar :: .ident nm :: ts => do
    let (sfx, ts1) ← pSuffixes ext fuel ts
    .ok (.varE nm sfx, ts1)
  | fuel + 1, .hash :: .ident nm :: ts => .ok (.constE nm, ts)
  | fuel + 1, .ident f :: .lparen :: ts =>
    (match ts with
     | .rparen :: ts1 => .ok (.callE f [], ts1)
     | _ => do
       let (a, ts1) ← pExpr ext fuel ts
       let (args, ts2) ← pArgsRest ext fuel ts1
       match ts2 with
       | .rparen :: ts3 => .ok (.callE f (a :: args), ts3)
       | _ => .error "syntax error: expected a closing parenthesis")
  | fuel + 1, .lparen :: ts => do
    let (e, ts1) ← pExpr ext fuel ts
    (match ts1 with
     | .rparen :: ts2 => .ok (e, ts2)
     | _ => .error "syntax error: expected a closing parenthesis")
  | _ + 1, _ => .error "syntax error: expected a primary"

def pArgsRest (ext : Bool) : Nat → List Tok → Except String (List Expr × List Tok)
  | 0, _ => .error "no fuel"
  | fuel + 1, .comma :: ts => do
    let (a, ts1) ← pExpr ext fuel ts
    let (rest, ts2) ← pArgsRest ext fuel ts1
    .ok (a :: rest, ts2)
  | _ + 1, ts => .ok ([], ts)

/-- The suffixes of a `varRef`.  Committed grammar (`ext = false`):
`(DOT IDENT)?`, one optional unit tag and nothing else.  Effective grammar
(`ext = true`): `suffix*` with `suffix := '.' IDENT | '[' expr ']'`, any
number in any order. -/
def pSuffixes (ext : Bool) : Nat → List Tok → Except String (List Sfx × List Tok)
  | 0, _ => .error "no fuel"
  | fuel + 1, ts =>
    if ext then
      match ts with
      | .dot :: .ident u :: ts1 => do
        let (rest, ts2) ← pSuffixes ext fuel ts1
        .ok (.unitTag u :: rest, ts2)
      | .lbrack :: ts1 => do
        let (e, ts2) ← pExpr ext fuel ts1
        (match ts2 with
         | .rbrack :: ts3 => do
           let (rest, ts4) ← pSuffixes ext fuel ts3
           .ok (.index e :: rest, ts4)
         | _ => .error "syntax error: expected a closing bracket")
      | _ => .ok ([], ts)
    else
      match ts with
      | .dot :: .ident u :: ts1 => .ok ([.unitTag u], ts1)
      | _ => .ok ([], ts)
end

/-- `formula := expr EOF`: tokenize, parse one expression and require the
whole stream consumed. -/
def parseFormula (ext : Bool) (s : String) : Except String Expr := do
  let ts ← tokenize ext s
  let (e, ts1) ← pExpr ext (10 * (s.length + 2)) ts
  match ts1 with
  | [] => .ok e
  | _ => .error "syntax error: expected end of formula"

/-! ## The evaluator (`EvalVisitor`), fuelled

The remaining IEEE operations on the double model; the claims only
evaluate them where IEEE arithmetic is exact (the model carries no
negative zero and no rounding). -/

/-- IEEE negation. -/
def D.neg : D → D
  | .fin a => .fin (-a)
  | .nan => .nan
  | .pinf => .ninf
  | .ninf => .pinf

/-- IEEE addition. -/
def D.add : D → D → D
  | .fin a, .fin b => .fin (a + b)
  | .fin _, .pinf => .pinf
  | .fin _, .ninf => .ninf
  | .pinf, .fin _ => .pinf
  | .ninf, .fin _ => .ninf
  | .pinf, .pinf => .pinf
  | .ninf, .ninf => .ninf
  | .pinf, .ninf => .nan
  | .ninf, .pinf => .nan
  | .nan, _ => .nan
  | _, .nan => .nan

/-- IEEE multiplication. -/
def D.mul : D → D → D
  | .fin a, .fin b => .fin (a * b)
  | .fin a, .pinf => if a = 0 then .nan else if 0 < a then .pinf else .ninf
  | .fin a, .ninf => if a = 0 then .nan else if 0 < a then .ninf else .pinf
  | .pinf, .fin b => if b = 0 then .nan else if 0 < b then .pinf else .ninf
  | .ninf, .fin b => if b = 0 then .nan else if 0 < b then .ninf else .pinf
  | .pinf, .pinf => .pinf
  | .ninf, .ninf => .pinf
  | .pinf, .ninf => .ninf
  | .ninf, .pinf => .ninf
  | .nan, _ => .nan
  | _, .nan => .nan

/-- IEEE division (the model has no negative zero: a zero divisor counts as
`+0`). -/
def D.div : D → D → D
  | .fin a, .fin b =>
    if b = 0 then (if a = 0 then .nan else if 0 < a then .pinf else .ninf)
    else .fin (a / b)
  | .fin _, .pinf => .fin 0
  | .fin _, .ninf => .fin 0
  | .pinf, .fin b => if 0 ≤ b then .pinf else .ninf
  | .ninf, .fin b => if 0 ≤ b then .ninf else .pinf
  | .nan, _ => .nan
  | _, .nan => .nan
  | _, _ => .nan

/-- Truncation toward zero. -/
def qtrunc (x : ℚ) : ℤ := if x < 0 then -⌊-x⌋ else ⌊x⌋

/-- The C# `%` on doubles: `x - y * trunc(x / y)`, NaN for a zero divisor;
a finite value modulo infinity is the value itself. -/
def D.mod : D → D → D
  | .fin a, .fin b => if b = 0 then .nan else .fin (a - b * (qtrunc (a / b) : ℚ))
  | .fin a, .pinf => .fin a
  | .fin a, .ninf => .fin a
  | _, _ => .nan

/-- The evaluator's surroundings: the measured-value and constant lookups
handed to the `EvalVisitor` constructor and the function registry
(`FunctionRegistry.Functions`, an `OrdinalIgnoreCase` map consulted before
the arguments are evaluated; its individual entries are outside this
file's claims, so it stays a parameter). -/
structure EvalEnv where
  measured : MeasuredLookup := []
  constants : ConstantLookup := []
  funcs : List (String × (List D → Except String D)) := []

mutual
/-- The tree walk of `EvalVisitor`, one equation per `Visit` override;
fuelled (any fuel at least the tree's size computes the visitor's value). -/
def evalE (env : EvalEnv) : Nat → Expr → Except String D
  | 0, _ => .error "no fuel"
  | _ + 1, .num q => .ok (.fin q)
  | fuel + 1, .varE nm sfx => visitVarPrimary env.measured nm (evalSfx env fuel sfx)
  | _ + 1, .constE nm => visitConstPrimary env.constants nm
  | fuel + 1, .callE f args =>
    match lookupCI env.funcs f with
    | none => .error ("Unknown function: " ++ f)
    | some impl => do
      let vs ← evalArgs env fuel args
      impl vs
  | fuel + 1, .unaryPlus e => evalE env fuel e
  | fuel + 1, .unaryMinus e => do
    let v ← evalE env fuel e
    .ok (D.neg v)
  | fuel + 1, .powChain a rest => do
    let v ← evalE env fuel a
    evalPowRest env fuel v rest
  | fuel + 1, .mulChain a rest => do
    let v ← evalE env fuel a
    evalMulRest env fuel v rest
  | fuel + 1, .addChain a rest => do
    let v ← evalE env fuel a
    evalAddRest env fuel v rest
  | fuel + 1, .cmpChain a rest => do
    let v ← evalE env fuel a
    evalCmpRest env fuel v rest

/-- The suffix values handed to `VisitVarPrimary`: each index expression's
outcome is carried unevaluated (the loop forces it only on reaching the
suffix, exactly as `Visit(suffix.expr())` runs inside the C# loop). -/
def evalSfx (env : EvalEnv) : Nat → List Sfx → List SuffixVal
  | 0, _ => [.idx (.error "no fuel")]
  | _ + 1, [] => []
  | fuel + 1, .unitTag u :: rest => .unitTag u :: evalSfx env fuel rest
  | fuel + 1, .index e :: rest => .idx (evalE env fuel e) :: evalSfx env fuel rest

/-- `VisitFuncPrimary`'s argument loop: left-to-right, eager. -/
def evalArgs (env : EvalEnv) : Nat → List Expr → Except String (List D)
  | 0, _ => .error "no fuel"
  | _ + 1, [] => .ok []
  | fuel + 1, e :: rest => do
    let v ← evalE env fuel e
    let vs ← evalArgs env fuel rest
    .ok (v :: vs)

/-- `VisitPow`'s loop. -/
def evalPowRest (env : EvalEnv) : Nat → D → List Expr → Except String D
  | 0, _, _ => .error "no fuel"
  | _ + 1, v, [] => .ok v
  | fuel + 1, v, e :: rest => do
    let r ← evalE env fuel e
    evalPowRest env fuel (D.pow v r) rest

/-- `VisitMul`'s loop. -/
def evalMulRest (env : EvalEnv) : Nat → D → List (MulOp × Expr) → Except String D
  | 0, _, _ => .error "no fuel"
  | _ + 1, v, [] => .ok v
  | fuel + 1, v, (op, e) :: rest => do
    let r ← evalE env fuel e
    evalMulRest env fuel
      (match op with
       | .timesOp => D.mul v r
       | .divOp => D.div v r
       | .modOp => D.mod v r) rest

/-- `VisitAdd`'s loop. -/
def evalAddRest (env : EvalEnv) : Nat → D → List (AddOp × Expr) → Except String D
  | 0, _, _ => .error "no fuel"
  | _ + 1, v, [] => .ok v
  | fuel + 1, v, (op, e) :: rest => do
    let r ← evalE env fuel e
    evalAddRest env fuel
      (match op with
       | .plusOp => D.add v r
       | .minusOp => D.sub v r) rest

/-- `VisitCmp`'s loop: each comparator turns the accumulator into 1.0 or
0.0 via `cmpTruth`. -/
def evalCmpRest (env : EvalEnv) : Nat → D → List (CmpOp × Expr) → Except String D
  | 0, _, _ => .error "no fuel"
  | _ + 1, v, [] => .ok v
  | fuel + 1, v, (op, e) :: rest => do
    let r ← evalE env fuel e
    evalCmpRest env fuel (if cmpTruth op v r then D.fin 1 else D.fin 0) rest
end

/-- Parse a formula with the effective grammar and evaluate it, with fuel
ample for the input's size. -/
def parseAndEval (env : EvalEnv) (s : String) : Except String D := do
  let ast ← parseFormula true s
  evalE env (10 * (s.length + 2)) ast

/-- Whether a parse (or any `Except`) succeeded. -/
def isOkE {ε α : Type} : Except ε α → Bool
  | .ok _ => true
  | .error _ => false

/-! ## Shared lemmas -/

/-- Bind on a successful `Except` steps into the continuation. -/
theorem except_bind_ok {ε α β : Type} (a : α) (f : α → Except ε β) :
    (Except.ok a >>= f : Except ε β) = f a := rfl

/-- Bind on a failed `Except` short-circuits. -/
theorem except_bind_error {ε α β : Type} (e : ε) (f : α → Except ε β) :
    (Except.error e >>= f : Except ε β) = Except.error e := rfl

/-- Unpack `(l.find? p).map f = some e`. -/
theorem find_map_eq_some {α : Type} {l : List α} {p : α → Bool} {f : α → String}
    {e : String} (h : (l.find? p).map f = some e) :
    ∃ v, v ∈ l ∧ p v = true ∧ e = f v := by
  cases hf : l.find? p with
  | none => rw [hf] at h; cases h
  | some v =>
    rw [hf] at h
    exact ⟨v, List.mem_of_find?_eq_some hf, List.find?_some hf, (Option.some.injEq _ _).mp h.symm⟩

/-- When a fold step can only produce 1.0 or 0.0, so can the whole
remaining comparison chain. -/
theorem cmpFold_binary (rest : List (CmpOp × D)) :
    ∀ v : D, v = D.fin 1 ∨ v = D.fin 0 →
      visitCmpFold v rest = D.fin 1 ∨ visitCmpFold v rest = D.fin 0 := by
  induction rest with
  | nil => intro v hv; simpa [visitCmpFold] using hv
  | cons p rest ih =>
    intro v _
    simp only [visitCmpFold, List.foldl_cons] at *
    exact ih _ (by split <;> simp)

/-- One `==` step compares the absolute difference against C#
`double.Epsilon`. -/
theorem cmpFold_eq_val (a b : ℚ) :
    visitCmpFold (D.fin a) [(CmpOp.eq, D.fin b)] =
      if |a - b| < doubleEpsilonCS then D.fin 1 else D.fin 0 := by
  simp only [visitCmpFold, List.foldl_cons, List.foldl_nil, cmpTruth, D.sub, D.abs, D.ltB,
    decide_eq_true_eq]

/-- One `!=` step is the complement of the `==` step. -/
theorem cmpFold_ne_val (a b : ℚ) :
    visitCmpFold (D.fin a) [(CmpOp.ne, D.fin b)] =
      if |a - b| < doubleEpsilonCS then D.fin 0 else D.fin 1 := by
  simp only [visitCmpFold, List.foldl_cons, List.foldl_nil, cmpTruth, D.sub, D.abs,
    D.geB, D.leB, decide_eq_true_eq]
  rcases lt_or_le |a - b| doubleEpsilonCS with h | h
  · rw [if_neg (not_le.mpr h), if_pos h]
  · rw [if_pos h, if_neg (not_lt.mpr h)]

/-- C2, as stated, is false at the input pair (0, 2^(-60)): both operands
and their difference are exact doubles, the difference is below the machine
epsilon, yet `==` evaluates to 0.0 — the code compares against C#
`double.Epsilon` = 2^(-1074), not against `DBL_EPSILON`. -/
theorem cmp_machine_epsilon_counterexample :
    |(0 : ℚ) - 1 / 2 ^ 60| < machineEpsilon ∧
      visitCmpFold (D.fin 0) [(CmpOp.eq, D.fin (1 / 2 ^ 60))] = D.fin 0 := by
  constructor
  · rw [machineEpsilon, zero_sub, abs_neg, abs_of_pos (by positivity)]
    norm_num
  · rw [cmpFold_eq_val, if_neg]
    rw [doubleEpsilonCS, zero_sub, abs_neg, abs_of_pos (by positivity)]
    norm_num

/-- C2 (amended): `a == b` evaluates to 1.0 exactly when |a − b| is below
C# `double.Epsilon` = 2^(-1074) (the smallest positive double, so equality
is exact for representable doubles), `a != b` yields the complementary
value, and comparison chains reduce left-associatively with each step
yielding 1.0 or 0.0. -/
theorem cmp_equality_tolerance_and_chaining :
    (∀ a b : ℚ, visitCmpFold (D.fin a) [(CmpOp.eq, D.fin b)] =
        (if |a - b| < doubleEpsilonCS then D.fin 1 else D.fin 0))
  ∧ (∀ a b : ℚ, visitCmpFold (D.fin a) [(CmpOp.ne, D.fin b)] =
        (if |a - b| < doubleEpsilonCS then D.fin 0 else D.fin 1))
  ∧ (∀ (first : D) (rest : List (CmpOp × D)) (p : CmpOp × D),
        visitCmpFold first (rest ++ [p]) = visitCmpFold (visitCmpFold first rest) [p])
  ∧ (∀ (first : D) (p : CmpOp × D) (rest : List (CmpOp × D)),
        visitCmpFold first (p :: rest) = D.fin 1 ∨
          visitCmpFold first (p :: rest) = D.fin 0) := by
  refine ⟨cmpFold_eq_val, cmpFold_ne_val, ?_, ?_⟩
  · intro first rest p
    simp [visitCmpFold, List.foldl_append]
  · intro first p rest
    simp only [visitCmpFold, List.foldl_cons]
    exact cmpFold_binary rest _ (by split <;> simp)

/-- C3: the power chain folds left (`VisitPow` reduces the chain
left-to-right through `Math.Pow`), and the formula `2^3^2` evaluates to 64,
not 512. -/
theorem pow_chain_left_associative :
    (∀ (first : D) (rest : List D) (v : D),
        visitPowFold first (rest ++ [v]) = D.pow (visitPowFold first rest) v)
  ∧ (∀ a b c : ℚ, evalE {} 4 (.powChain (.num a) [.num b, .num c]) =
        .ok (D.pow (D.pow (D.fin a) (D.fin b)) (D.fin c)))
  ∧ parseAndEval {} "2^3^2" = .ok (D.fin 64)
  ∧ parseAndEval {} "2^3^2" ≠ .ok (D.fin 512) := by
  have h232 : parseAndEval {} "2^3^2" = .ok (D.fin 64) := by
    have h : parseAndEval {} "2^3^2" =
        .ok (D.pow (D.pow (D.fin (numberValue ['2'] [] false []))
          (D.fin (numberValue ['3'] [] false []))) (D.fin (numberValue ['2'] [] false []))) := rfl
    have h2 : numberValue ['2'] [] false [] = 2 := by
      norm_num [numberValue, digitsToNat, show '2'.toNat = 50 from rfl]
    have h3 : numberValue ['3'] [] false [] = 3 := by
      norm_num [numberValue, digitsToNat, show '3'.toNat = 51 from rfl]
    rw [h, h2, h3]
    norm_num [D.pow]
  refine ⟨?_, ?_, h232, ?_⟩
  · intro first rest v
    simp [visitPowFold, List.foldl_append]
  · intro a b c; rfl
  · intro h
    rw [h232] at h
    simp only [Except.ok.injEq, D.fin.injEq] at h
    norm_num at h

/-- C6: the committed `Formula.g4` (no index suffix, no bracket tokens)
rejects `$temps[1]`, while the suffix grammar the repository's visitors are
compiled against — `'$' IDENT ('.' IDENT | '[' expr ']')*` — accepts both
`$temps[1]` and `$v[0].km`. -/
theorem committed_grammar_rejects_index_suffix :
    isOkE (parseFormula false "$temps[1]") = false
  ∧ isOkE (parseFormula true "$temps[1]") = true
  ∧ isOkE (parseFormula true "$v[0].km") = true :=
  ⟨rfl, rfl, rfl⟩

/-- Rounding half-to-even is the identity on integers. -/
theorem roundHalfEven_intCast (k : ℤ) : roundHalfEven (k : ℚ) = k := by
  unfold roundHalfEven
  rw [Int.floor_intCast]
  norm_num

/-- `NormalizeIndex` on an exact integer within the int range: only the
sign check can fail. -/
theorem normalizeIndex_intCast (k : ℤ) (nm : String) (hlo : intMinValue ≤ k)
    (hhi : k ≤ intMaxValue) :
    normalizeIndex (D.fin (k : ℚ)) nm =
      if k < 0 then
        .error ("Index for variable '" ++ nm ++ "' must be non-negative.")
      else .ok k := by
  have hcast : castToInt (roundHalfEven (k : ℚ)) = k := by
    rw [roundHalfEven_intCast]
    simp only [castToInt]
    rw [if_neg (not_lt.mpr hhi), if_neg (not_lt.mpr hlo)]
  simp only [normalizeIndex, hcast, sub_self, abs_zero]
  rw [if_neg (by norm_num [indexTolerance])]

/-- C5, as stated, is false: a reference with two unit-tag suffixes does
not fail (the second tag overwrites the first, here converting 1000 meters
to 1000 m), and a reference with two index suffixes fails with a message
different from the claimed `Variable 'v' is used with multiple
indices/units`. -/
theorem multiple_suffixes_counterexample :
    visitVarPrimary [("d", { id := "$d", value := some 1000, unitField := some "meter" })]
        "d" [.unitTag "km", .unitTag "m"] = .ok (D.fin 1000)
  ∧ visitVarPrimary [("v", { id := "$v", values := some [10, 20] })]
        "v" [.idx (.ok (D.fin 1)), .idx (.ok (D.fin 0))] =
      .error "Variable 'v' is used with multiple indices; only one dimension is supported."
  ∧ "Variable 'v' is used with multiple indices; only one dimension is supported." ≠
      "Variable 'v' is used with multiple indices/units" := by
  refine ⟨rfl, ?_, by decide⟩
  have hn : normalizeIndex (D.fin 1) "v" = .ok 1 := by
    have h := normalizeIndex_intCast 1 "v" (by norm_num [intMinValue]) (by norm_num [intMaxValue])
    simpa using h
  have hc : collectSuffixes "v" [.idx (.ok (D.fin 1)), .idx (.ok (D.fin 0))] (none, none) =
      .error "Variable 'v' is used with multiple indices; only one dimension is supported." := by
    simp [collectSuffixes, hn, except_bind_ok, except_bind_error]
  simp [visitVarPrimary, hc, except_bind_ok, except_bind_error, lookupCI, keyEq]

/-- C5 (amended): at most one index is enforced — on reaching a second
index suffix the evaluator fails with `Variable '<name>' is used with
multiple indices; only one dimension is supported.` (not the claimed
`…multiple indices/units` text) — while any number of unit-tag suffixes is
accepted, the last tag taking effect. -/
theorem multiple_indices_enforced_units_overwrite :
    (∀ (nm : String) (ev : Except String D) (rest : List SuffixVal) (i : ℤ)
        (ru : Option String),
        collectSuffixes nm (.idx ev :: rest) (some i, ru) =
          .error ("Variable '" ++ nm ++
            "' is used with multiple indices; only one dimension is supported."))
  ∧ (∀ (nm u : String) (us : List String) (st : Option ℤ × Option String),
        collectSuffixes nm ((us ++ [u]).map SuffixVal.unitTag) st = .ok (st.1, some u))
  ∧ (∀ (measured : MeasuredLookup) (nm : String) (mv : MeasuredValue) (q : ℚ)
        (u1 u2 : String),
        lookupCI measured nm = some mv → hasVector mv = false → mv.value = some q →
        visitVarPrimary measured nm [.unitTag u1, .unitTag u2] =
          applyUnit mv nm q (some u2)) := by
  refine ⟨fun nm ev rest i ru => rfl, ?_, ?_⟩
  · intro nm u us
    induction us with
    | nil => intro st; rfl
    | cons v vs ih =>
      intro st
      simpa [collectSuffixes] using ih (st.1, some v)
  · intro measured nm mv q u1 u2 h1 h2 h3
    simp [visitVarPrimary, h1, collectSuffixes, h2, h3, except_bind_ok]

/-- Half-to-even rounding picks a nearest integer: its distance to the
value is minimal among all integers. -/
theorem roundHalfEven_nearest (q : ℚ) (k : ℤ) :
    |q - (roundHalfEven q : ℚ)| ≤ |q - (k : ℚ)| := by
  have hfl : (⌊q⌋ : ℚ) ≤ q := Int.floor_le q
  have hfu : q < (⌊q⌋ : ℚ) + 1 := Int.lt_floor_add_one q
  have hbound : q - (⌊q⌋ : ℚ) ≤ |q - (k : ℚ)| ∨ (⌊q⌋ : ℚ) + 1 - q ≤ |q - (k : ℚ)| := by
    rcases le_or_lt k ⌊q⌋ with hk | hk
    · left
      have hkq : (k : ℚ) ≤ (⌊q⌋ : ℚ) := by exact_mod_cast hk
      rw [abs_of_nonneg (by linarith)]
      linarith
    · right
      have hkq : (⌊q⌋ : ℚ) + 1 ≤ (k : ℚ) := by exact_mod_cast hk
      rw [abs_of_nonpos (by linarith), neg_sub]
      linarith
  simp only [roundHalfEven]
  split
  next h =>
    rw [abs_of_nonneg (by linarith)]
    rcases hbound with hb | hb
    · exact hb
    · linarith
  next h =>
    split
    next h' =>
      push_cast
      rw [abs_of_nonpos (by linarith), neg_sub]
      rcases hbound with hb | hb
      · linarith
      · linarith
    next h' =>
      have hhalf : q - (⌊q⌋ : ℚ) = 1 / 2 := le_antisymm (not_lt.mp h') (not_lt.mp h)
      split
      next =>
        rw [abs_of_nonneg (by linarith)]
        rcases hbound with hb | hb
        · exact hb
        · linarith
      next =>
        push_cast
        rw [abs_of_nonpos (by linarith), neg_sub]
        rcases hbound with hb | hb
        · linarith
        · linarith

/-- `VisitVarPrimary` on a single already-evaluated index suffix: the
collected state is the normalized index. -/
theorem collect_single_idx (nm : String) (raw : D) :
    collectSuffixes nm [.idx (.ok raw)] (none, none) =
      (normalizeIndex raw nm).map (fun i => (some i, none)) := by
  cases h : normalizeIndex raw nm <;>
    simp [collectSuffixes, h, except_bind_ok, except_bind_error, Except.map]

/-- Half-to-even rounding lands within a half of the value. -/
theorem roundHalfEven_dist_le_half (q : ℚ) :
    |q - (roundHalfEven q : ℚ)| ≤ 1 / 2 := by
  have hfl : (⌊q⌋ : ℚ) ≤ q := Int.floor_le q
  have hfu : q < (⌊q⌋ : ℚ) + 1 := Int.lt_floor_add_one q
  simp only [roundHalfEven]
  split
  next h =>
    rw [abs_of_nonneg (by linarith)]
    linarith
  next h =>
    split
    next h2 =>
      push_cast
      rw [abs_of_nonpos (by linarith), neg_sub]
      linarith
    next h2 =>
      have hhalf : q - (⌊q⌋ : ℚ) = 1 / 2 := le_antisymm (not_lt.mp h2) (not_lt.mp h)
      split
      next =>
        rw [abs_of_nonneg (by linarith)]
        linarith
      next =>
        push_cast
        rw [abs_of_nonpos (by linarith), neg_sub]
        linarith

/-- C4: referencing a vector measured value of length n (n fitting in a C#
`int`, as every .NET list length does) with an index expression fails with
the catalogued message when the evaluated index is NaN or infinite, or
farther than 1e-9 from its nearest whole number (the code tests the
distance to the int-converted rounding; half-to-even rounding picks a
nearest integer, and the saturating int conversion only moves an index the
failure characterization below already rejects), or negative, or at least
n; otherwise it yields the zero-based element, so index n−1 is the last
element and index n is out of range. -/
theorem vector_index_checks :
    ∀ (measured : MeasuredLookup) (nm : String) (mv : MeasuredValue) (l : List ℚ),
      lookupCI measured nm = some mv → mv.values = some l →
      (l.length : ℤ) ≤ intMaxValue → ∀ hne : l ≠ [],
      (∀ raw : D, (raw.isNaN || raw.isInfinity) = true →
          visitVarPrimary measured nm [.idx (.ok raw)] =
            .error ("Index for variable '" ++ nm ++ "' must evaluate to a finite number."))
    ∧ (∀ q : ℚ, indexTolerance < |q - (castToInt (roundHalfEven q) : ℚ)| →
          visitVarPrimary measured nm [.idx (.ok (.fin q))] =
            .error ("Index for variable '" ++ nm ++ "' must be an integer."))
    ∧ (∀ q : ℚ, |q - (castToInt (roundHalfEven q) : ℚ)| ≤ indexTolerance →
          castToInt (roundHalfEven q) < 0 →
          visitVarPrimary measured nm [.idx (.ok (.fin q))] =
            .error ("Index for variable '" ++ nm ++ "' must be non-negative."))
    ∧ (∀ q : ℚ, |q - (castToInt (roundHalfEven q) : ℚ)| ≤ indexTolerance →
          0 ≤ castToInt (roundHalfEven q) →
          (l.length : ℤ) ≤ castToInt (roundHalfEven q) →
          visitVarPrimary measured nm [.idx (.ok (.fin q))] =
            .error ("Index " ++ toString (castToInt (roundHalfEven q)) ++
              " is out of range for variable '" ++ nm ++ "'."))
    ∧ (∀ q : ℚ, |q - (castToInt (roundHalfEven q) : ℚ)| ≤ indexTolerance →
          0 ≤ castToInt (roundHalfEven q) →
          castToInt (roundHalfEven q) < (l.length : ℤ) →
          visitVarPrimary measured nm [.idx (.ok (.fin q))] =
            .ok (.fin (l.getD (castToInt (roundHalfEven q)).toNat 0)))
    ∧ (∀ q : ℚ, (∃ e, visitVarPrimary measured nm [.idx (.ok (.fin q))] = .error e) ↔
          (indexTolerance < |q - (roundHalfEven q : ℚ)| ∨ roundHalfEven q < 0 ∨
            (l.length : ℤ) ≤ roundHalfEven q))
    ∧ (∀ q : ℚ, indexTolerance < |q - (roundHalfEven q : ℚ)| ↔
          ∀ k : ℤ, indexTolerance < |q - (k : ℚ)|)
    ∧ visitVarPrimary measured nm [.idx (.ok (.fin ((l.length : ℚ) - 1)))] =
        .ok (.fin (l.getLast hne))
    ∧ visitVarPrimary measured nm [.idx (.ok (.fin (l.length : ℚ)))] =
        .error ("Index " ++ toString (l.length : ℤ) ++
          " is out of range for variable '" ++ nm ++ "'.") := by
  intro measured nm mv l hmv hvals hlen hne
  have hminneg : intMinValue < 0 := by norm_num [intMinValue]
  have hmaxpos : (0 : ℤ) < intMaxValue := by norm_num [intMaxValue]
  have htol_half : indexTolerance < 1 / 2 := by norm_num [indexTolerance]
  have hone : (1 : ℤ) ≤ (l.length : ℤ) := by
    exact_mod_cast List.length_pos.mpr hne
  have hvec : hasVector mv = true := by
    simp [hasVector, hvals, List.length_pos, hne]
  have hgetD : mv.values.getD [] = l := by rw [hvals]; rfl
  have hok : ∀ i : ℤ, 0 ≤ i → i < (l.length : ℤ) →
      ∀ q : ℚ, normalizeIndex (D.fin q) nm = .ok i →
      visitVarPrimary measured nm [.idx (.ok (.fin q))] = .ok (.fin (l.getD i.toNat 0)) := by
    intro i h0 hlt q hni
    simp only [visitVarPrimary, hmv, collect_single_idx, hni, Except.map, except_bind_ok,
      hvec, if_true, hgetD]
    rw [if_neg (by omega)]
    rfl
  have herr : ∀ (raw : D) (e : String), normalizeIndex raw nm = .error e →
      visitVarPrimary measured nm [.idx (.ok raw)] = .error e := by
    intro raw e hni
    simp only [visitVarPrimary, hmv, collect_single_idx, hni, Except.map, except_bind_error]
  have houtrange : ∀ (q : ℚ) (i : ℤ), normalizeIndex (D.fin q) nm = .ok i →
      (l.length : ℤ) ≤ i →
      visitVarPrimary measured nm [.idx (.ok (.fin q))] =
        .error ("Index " ++ toString i ++ " is out of range for variable '" ++ nm ++ "'.") := by
    intro q i hni hge
    simp only [visitVarPrimary, hmv, collect_single_idx, hni, Except.map, except_bind_ok,
      hvec, if_true, hgetD]
    rw [if_pos (by omega)]
  have hnorm_ok : ∀ q : ℚ, |q - (castToInt (roundHalfEven q) : ℚ)| ≤ indexTolerance →
      0 ≤ castToInt (roundHalfEven q) →
      normalizeIndex (D.fin q) nm = .ok (castToInt (roundHalfEven q)) := by
    intro q htol h0
    simp only [normalizeIndex]
    rw [if_neg (not_lt.mpr htol), if_neg (not_lt.mpr h0)]
  have hnorm_int : ∀ q : ℚ, indexTolerance < |q - (castToInt (roundHalfEven q) : ℚ)| →
      normalizeIndex (D.fin q) nm =
        .error ("Index for variable '" ++ nm ++ "' must be an integer.") := by
    intro q h
    simp only [normalizeIndex]
    rw [if_pos h]
  have hcast_out : ∀ q : ℚ, (intMaxValue < roundHalfEven q ∨ roundHalfEven q < intMinValue) →
      indexTolerance < |q - (castToInt (roundHalfEven q) : ℚ)| := by
    intro q hq
    have hh := abs_le.mp (roundHalfEven_dist_le_half q)
    rcases hq with hq | hq
    · have hc : castToInt (roundHalfEven q) = intMaxValue := by
        simp only [castToInt]
        rw [if_pos hq]
      have h2 : intMaxValue + 1 ≤ roundHalfEven q := hq
      have h2q : (intMaxValue : ℚ) + 1 ≤ (roundHalfEven q : ℚ) := by exact_mod_cast h2
      rw [hc, abs_of_nonneg (by linarith [hh.1])]
      linarith [hh.1]
    · have hc : castToInt (roundHalfEven q) = intMinValue := by
        simp only [castToInt]
        rw [if_neg (not_lt.mpr (by omega)), if_pos hq]
      have h2 : roundHalfEven q ≤ intMinValue - 1 := by omega
      have h2q : (roundHalfEven q : ℚ) ≤ (intMinValue : ℚ) - 1 := by exact_mod_cast h2
      rw [hc, abs_of_nonpos (by linarith [hh.2]), neg_sub]
      linarith [hh.2]
  refine ⟨?_, ?_, ?_, ?_, ?_, ?_, ?_, ?_, ?_⟩
  · intro raw hraw
    cases raw with
    | fin q => simp [D.isNaN, D.isInfinity] at hraw
    | nan => exact herr _ _ rfl
    | pinf => exact herr _ _ rfl
    | ninf => exact herr _ _ rfl
  · intro q htol
    exact herr (.fin q) _ (hnorm_int q htol)
  · intro q htol hneg
    refine herr (.fin q) _ ?_
    simp only [normalizeIndex]
    rw [if_neg (not_lt.mpr htol), if_pos hneg]
  · intro q htol h0 hge
    exact houtrange q _ (hnorm_ok q htol h0) hge
  · intro q htol h0 hlt
    exact hok _ h0 hlt q (hnorm_ok q htol h0)
  · intro q
    constructor
    · rintro ⟨e, he⟩
      by_contra hcon
      push_neg at hcon
      obtain ⟨hd, h0, hlt⟩ := hcon
      have hm : castToInt (roundHalfEven q) = roundHalfEven q := by
        simp only [castToInt]
        rw [if_neg (not_lt.mpr (le_of_lt (lt_of_lt_of_le hlt hlen))),
          if_neg (not_lt.mpr (le_trans (le_of_lt hminneg) h0))]
      have hres := hok (roundHalfEven q) h0 hlt q (by rw [← hm] at h0 ⊢; exact hnorm_ok q (by rw [hm]; exact hd) h0)
      rw [hres] at he
      cases he
    · intro hcond
      by_cases hhi : intMaxValue < roundHalfEven q
      · exact ⟨_, herr (.fin q) _ (hnorm_int q (hcast_out q (Or.inl hhi)))⟩
      · by_cases hlo : roundHalfEven q < intMinValue
        · exact ⟨_, herr (.fin q) _ (hnorm_int q (hcast_out q (Or.inr hlo)))⟩
        · have hm : castToInt (roundHalfEven q) = roundHalfEven q := by
            simp only [castToInt]
            rw [if_neg hhi, if_neg hlo]
          by_cases hd : indexTolerance < |q - (castToInt (roundHalfEven q) : ℚ)|
          · exact ⟨_, herr (.fin q) _ (hnorm_int q hd)⟩
          · push_neg at hd
            rcases hcond with hc | hc | hc
            · rw [hm] at hd
              exact absurd hc (not_lt.mpr hd)
            · exact ⟨"Index for variable '" ++ nm ++ "' must be non-negative.",
                herr (.fin q) _ (by
                  simp only [normalizeIndex]
                  rw [if_neg (not_lt.mpr hd), if_pos (by rw [hm]; exact hc)])⟩
            · have h0 : 0 ≤ castToInt (roundHalfEven q) := by
                rw [hm]
                omega
              exact ⟨_, houtrange q _ (hnorm_ok q hd h0) (by rw [hm]; exact hc)⟩
  · intro q
    constructor
    · intro h k
      exact lt_of_lt_of_le h (roundHalfEven_nearest q k)
    · intro h
      exact h (roundHalfEven q)
  · have hlen1 : ((l.length : ℚ) - 1) = ((l.length - 1 : ℤ) : ℚ) := by push_cast; ring
    have hni : normalizeIndex (D.fin ((l.length : ℚ) - 1)) nm = .ok ((l.length : ℤ) - 1) := by
      rw [hlen1, normalizeIndex_intCast ((l.length : ℤ) - 1) nm (by omega) (by omega)]
      rw [if_neg (by omega)]
    have h := hok ((l.length : ℤ) - 1) (by omega) (by omega) _ hni
    rw [h]
    have htn : ((l.length : ℤ) - 1).toNat = l.length - 1 := by omega
    rw [htn, List.getD_eq_getElem l 0 (by omega), List.getLast_eq_getElem]
  · have hcast : ((l.length : ℚ)) = ((l.length : ℤ) : ℚ) := by push_cast; ring
    have hni : normalizeIndex (D.fin (l.length : ℚ)) nm = .ok (l.length : ℤ) := by
      rw [hcast, normalizeIndex_intCast (l.length : ℤ) nm (by omega) (by omega)]
      rw [if_neg (by omega)]
    exact houtrange _ _ hni (by omega)

/-- C4 witness: for the vector [10, 20, 30], a NaN index is rejected with
the catalogued message. -/
theorem vector_index_checks_witness :
    visitVarPrimary [("t", { id := "$t", values := some [10, 20, 30] })] "t"
        [.idx (.ok D.nan)] =
      .error "Index for variable 't' must evaluate to a finite number." :=
  (vector_index_checks [("t", { id := "$t", values := some [10, 20, 30] })] "t"
      { id := "$t", values := some [10, 20, 30] } [10, 20, 30] rfl rfl
      (by norm_num [intMaxValue]) (by simp)).1 D.nan rfl

/-- Membership after a dictionary insert: the binding existed before or
carries the inserted value. -/
theorem insertCI_mem {α : Type} (l : List (String × α)) (k : String) (v : α)
    (p : String × α) (hp : p ∈ insertCI l k v) : p ∈ l ∨ p.2 = v := by
  unfold insertCI at hp
  split at hp
  · obtain ⟨q, hq, hqe⟩ := List.mem_map.mp hp
    by_cases h : keyEq q.1 k
    · right; rw [← hqe]; simp [h]
    · left
      rw [← hqe]
      simpa [h] using hq
  · rcases List.mem_append.mp hp with h | h
    · exact Or.inl h
    · right
      rcases List.mem_singleton.mp h with rfl
      rfl

/-- A successful lookup construction only stores scalar-XOR-vector
entries. -/
theorem buildMeasuredGo_ok_xor (mvs : List MeasuredValue) :
    ∀ acc : MeasuredLookup, (∀ p ∈ acc, Bool.xor (hasScalar p.2) (hasVector p.2) = true) →
      ∀ L, buildMeasuredGo acc mvs = .ok L →
      ∀ p ∈ L, Bool.xor (hasScalar p.2) (hasVector p.2) = true := by
  induction mvs with
  | nil =>
    intro acc hacc L hL
    simp only [buildMeasuredGo, Except.ok.injEq] at hL
    subst hL
    exact hacc
  | cons mv rest ih =>
    intro acc hacc L hL
    simp only [buildMeasuredGo] at hL
    split at hL
    · cases hL
    · split at hL
      · cases hL
      · split at hL
        · cases hL
        · split at hL
          · cases hL
          · refine ih _ ?_ L hL
            intro p hp
            rcases insertCI_mem _ _ _ p hp with h | h
            · exact hacc p h
            · rw [h]
              cases hs : hasScalar mv <;> cases hv : hasVector mv <;> simp_all

/-- A list containing an ambiguous entry (scalar and vector both present,
or both absent) never builds a lookup. -/
theorem buildMeasuredGo_error_of_bad (mvs : List MeasuredValue) :
    ∀ acc : MeasuredLookup, (∃ mv ∈ mvs, hasScalar mv = hasVector mv) →
      ∃ e, buildMeasuredGo acc mvs = .error e := by
  induction mvs with
  | nil =>
    intro acc h
    simp at h
  | cons mv rest ih =>
    intro acc h
    simp only [buildMeasuredGo]
    split
    · exact ⟨_, rfl⟩
    · split
      · exact ⟨_, rfl⟩
      · split
        · exact ⟨_, rfl⟩
        · split
          · exact ⟨_, rfl⟩
          · rcases h with ⟨mv', hmem, hbad⟩
            rcases List.mem_cons.mp hmem with rfl | hmem'
            · cases hs : hasScalar mv' <;> cases hv : hasVector mv' <;> simp_all
            · exact ih _ ⟨mv', hmem', hbad⟩

/-- C7: `BuildMeasuredLookup` enforces scalar-XOR-vector (an empty vector
counting as absent): an ambiguous entry is rejected with a definitional
error before the symbol checks, a successful lookup holds only unambiguous
entries, and on a lookup error the pipeline's outcome ignores the
evaluator entirely. -/
theorem measured_scalar_xor_vector :
    (∀ (mvs : List MeasuredValue) (L : MeasuredLookup), buildMeasuredLookup mvs = .ok L →
        ∀ p ∈ L, Bool.xor (hasScalar p.2) (hasVector p.2) = true)
  ∧ (∀ mvs : List MeasuredValue, (∃ mv ∈ mvs, hasScalar mv = hasVector mv) →
        ∃ e, buildMeasuredLookup mvs = .error e)
  ∧ (∀ mv : MeasuredValue, mv.values = some [] → hasVector mv = false)
  ∧ (∀ (input : String) (u : SymbolUsage) (mvs : List MeasuredValue)
        (base ovs : List Constant) (e : String) (ev ev' : Except String D),
        buildMeasuredLookup mvs = .error e →
        runPipeline input u mvs base ovs ev = { error := some e }
        ∧ runPipeline input u mvs base ovs ev = runPipeline input u mvs base ovs ev') := by
  refine ⟨?_, ?_, ?_, ?_⟩
  · intro mvs L hL
    exact buildMeasuredGo_ok_xor mvs [] (by simp) L hL
  · intro mvs h
    exact buildMeasuredGo_error_of_bad mvs [] h
  · intro mv h
    simp [hasVector, h]
  · intro input u mvs base ovs e ev ev' h
    constructor <;> simp [runPipeline, h]

/-- C7 witness: an entry carrying both a scalar and a non-empty vector is
rejected, and a legal request's lookup stores a scalar-XOR-vector entry. -/
theorem measured_scalar_xor_vector_witness :
    (∃ e, buildMeasuredLookup [{ id := "a", value := some 1, values := some [1, 2] }] =
      .error e) ∧
    buildMeasuredLookup [{ id := "b", value := some 5 }] =
      .ok [("b", { id := "b", value := some 5 })] :=
  ⟨measured_scalar_xor_vector.2.1 [{ id := "a", value := some 1, values := some [1, 2] }]
      ⟨{ id := "a", value := some 1, values := some [1, 2] }, by simp, rfl⟩,
    rfl⟩

/-- C8: once a formula passed emptiness, parsing, lookup construction and
the semantic checks, the final value decides the envelope: NaN and the two
infinities fail with their catalogued messages and a default (invalid)
envelope, while a finite value succeeds with the value, the trimmed
original input as the evaluated formula, no error, and source "Backend". -/
theorem final_value_policy (formula : String) (u : SymbolUsage)
    (mvs : List MeasuredValue) (base ovs : List Constant) (L : MeasuredLookup) (q : ℚ)
    (hformula : isNullOrWhiteSpace formula = false)
    (hL : buildMeasuredLookup mvs = .ok L)
    (hsem : semanticChecks u L base ovs = none) :
    validateFormula formula none u mvs base ovs (.ok .nan) =
      { isValid := false, error := some "Result is not a real number (NaN)",
        result := none, evaluatedFormula := none, source := "Backend" }
  ∧ validateFormula formula none u mvs base ovs (.ok .pinf) =
      { isValid := false, error := some "Result is infinity - division by zero or overflow",
        result := none, evaluatedFormula := none, source := "Backend" }
  ∧ validateFormula formula none u mvs base ovs (.ok .ninf) =
      { isValid := false, error := some "Result is infinity - division by zero or overflow",
        result := none, evaluatedFormula := none, source := "Backend" }
  ∧ validateFormula formula none u mvs base ovs (.ok (.fin q)) =
      { isValid := true, error := none, result := some q,
        evaluatedFormula := some (trimStr formula), source := "Backend" } := by
  refine ⟨?_, ?_, ?_, ?_⟩ <;>
    simp [validateFormula, hformula, runPipeline, hL, hsem, finishValue]

/-- C8 witness: the pipeline at the formula "2 + 2" with no symbols and the
finite final value 4. -/
theorem final_value_policy_witness :
    validateFormula "2 + 2" none {} [] [] [] (.ok (.fin 4)) =
      { isValid := true, error := none, result := some 4,
        evaluatedFormula := some (trimStr "2 + 2"), source := "Backend" } :=
  (final_value_policy "2 + 2" {} [] [] [] [] 4 rfl rfl rfl).2.2.2

/-- Lookup construction processes the request list left to right: a prefix
is processed first and its failure short-circuits. -/
theorem buildMeasuredGo_append (l1 l2 : List MeasuredValue) :
    ∀ acc : MeasuredLookup, buildMeasuredGo acc (l1 ++ l2) =
      (buildMeasuredGo acc l1).bind fun acc' => buildMeasuredGo acc' l2 := by
  induction l1 with
  | nil => intro acc; rfl
  | cons mv rest ih =>
    intro acc
    simp only [List.cons_append, buildMeasuredGo]
    split
    · rfl
    · split
      · rfl
      · split
        · rfl
        · split
          · rfl
          · exact ih _

/-- C10, as stated, is false: when an entry before the empty-id entry
itself fails a lookup check (here, declaring both a scalar and a vector),
that earlier error is returned instead of `Measured value id cannot be
empty.` — though validation still stops before the undefined-variable
check with is_valid = false. -/
theorem empty_id_preempted_counterexample :
    buildMeasuredLookup
        [{ id := "a", value := some 1, values := some [1, 2] }, { id := "" }] =
      .error "Variable '$a' cannot define both 'value' and 'values'."
  ∧ runPipeline "1" {} [{ id := "a", value := some 1, values := some [1, 2] }, { id := "" }]
        [] [] (.ok (.fin 1)) =
      { isValid := false, error := some "Variable '$a' cannot define both 'value' and 'values'.",
        result := none, evaluatedFormula := none, source := "Backend" }
  ∧ "Variable '$a' cannot define both 'value' and 'values'." ≠
      "Measured value id cannot be empty." :=
  ⟨rfl, rfl, by decide⟩

/-- C10 (amended): when every entry before it passes the lookup checks, an
entry whose id normalizes (trimming whitespace, stripping leading `$`,
trimming again) to the empty string stops validation with `Measured value
id cannot be empty.`, before the undefined-variable check and independently
of the evaluator's outcome. -/
theorem empty_measured_id_stops_validation (pre : List MeasuredValue)
    (mv : MeasuredValue) (post : List MeasuredValue) (L : MeasuredLookup)
    (hpre : buildMeasuredLookup pre = .ok L)
    (hid : normalizeVariableId mv.id = "") :
    buildMeasuredLookup (pre ++ mv :: post) = .error "Measured value id cannot be empty."
  ∧ ∀ (input : String) (u : SymbolUsage) (base ovs : List Constant) (ev : Except String D),
      runPipeline input u (pre ++ mv :: post) base ovs ev =
        { isValid := false, error := some "Measured value id cannot be empty.",
          result := none, evaluatedFormula := none, source := "Backend" } := by
  have hbuild : buildMeasuredLookup (pre ++ mv :: post) =
      .error "Measured value id cannot be empty." := by
    unfold buildMeasuredLookup at hpre ⊢
    rw [buildMeasuredGo_append, hpre]
    simp only [Except.bind, buildMeasuredGo, hid, if_pos]
  exact ⟨hbuild, fun input u base ovs ev => by simp [runPipeline, hbuild]⟩

/-- C10 witness: a single entry with the empty id. -/
theorem empty_measured_id_stops_validation_witness :
    buildMeasuredLookup [{ id := "" }] = .error "Measured value id cannot be empty." :=
  (empty_measured_id_stops_validation [] { id := "" } [] [] rfl rfl).1

/-- No single category's alias table contains both strings: this holds in
particular when either string is unknown to the whole catalog, and when the
two resolve to different quantity categories. -/
def noCommonCategory (sa sb : String) : Prop :=
    ((lookupCI lengthAliases sa).isSome = false ∨ (lookupCI lengthAliases sb).isSome = false)
  ∧ ((lookupCI massAliases sa).isSome = false ∨ (lookupCI massAliases sb).isSome = false)
  ∧ ((lookupCI durationAliases sa).isSome = false ∨ (lookupCI durationAliases sb).isSome = false)
  ∧ ((lookupCI temperatureAliases sa).isSome = false ∨ (lookupCI temperatureAliases sb).isSome = false)
  ∧ ((lookupCI electricCurrentAliases sa).isSome = false ∨ (lookupCI electricCurrentAliases sb).isSome = false)
  ∧ ((lookupCI electricPotentialAliases sa).isSome = false ∨ (lookupCI electricPotentialAliases sb).isSome = false)
  ∧ ((lookupCI electricResistanceAliases sa).isSome = false ∨ (lookupCI electricResistanceAliases sb).isSome = false)
  ∧ ((lookupCI volumeAliases sa).isSome = false ∨ (lookupCI volumeAliases sb).isSome = false)
  ∧ ((lookupCI pressureAliases sa).isSome = false ∨ (lookupCI pressureAliases sb).isSome = false)
  ∧ ((lookupCI forceAliases sa).isSome = false ∨ (lookupCI forceAliases sb).isSome = false)
  ∧ ((lookupCI energyAliases sa).isSome = false ∨ (lookupCI energyAliases sb).isSome = false)
  ∧ ((lookupCI powerAliases sa).isSome = false ∨ (lookupCI powerAliases sb).isSome = false)

/-- Self-conversion through one category: either the alias is not in the
table, or the conversion is the exact identity. -/
theorem catConvert_self {U : Type} [DecidableEq U] (aliases : List (String × U))
    (asF : ℚ → U → U → ℚ) (v : ℚ) (s : String) (h : ∀ u, asF v u u = v) :
    catConvert aliases asF v s s = none ∨ catConvert aliases asF v s s = some v := by
  unfold catConvert
  cases hl : lookupCI aliases s
  · exact Or.inl rfl
  · right; simp [h]

/-- A category converter fails when either alias is missing from its
table. -/
theorem catConvert_none {U : Type} [DecidableEq U] (aliases : List (String × U))
    (asF : ℚ → U → U → ℚ) (v : ℚ) (s t : String)
    (h : (lookupCI aliases s).isSome = false ∨ (lookupCI aliases t).isSome = false) :
    catConvert aliases asF v s t = none := by
  unfold catConvert
  cases hs : lookupCI aliases s <;> cases ht : lookupCI aliases t <;> simp_all

/-- Step an `orElse` chain whose head cannot produce anything but the
identity value. -/
theorem orElse_step_self {v : ℚ} (x : Option ℚ) (g : Unit → Option ℚ)
    (hx : x = none ∨ x = some v) (hg : g () = some v) : x.orElse g = some v := by
  rcases hx with h | h <;> simp [h, Option.orElse, hg]

/-- Step an `orElse` chain over a failed head. -/
theorem orElse_step_none (x : Option ℚ) (g : Unit → Option ℚ) (hx : x = none) :
    x.orElse g = g () := by
  simp [hx, Option.orElse]

/-- C9, as stated, is false: self-conversion on the empty alias fails
(whitespace aliases are rejected before the textual self-comparison), and
two textually distinct but case-insensitively equal unknown aliases
convert successfully — so "fails whenever either alias is unknown" does
not hold for distinct strings either. -/
theorem try_convert_identity_counterexample :
    tryConvert 1 "" "" = none ∧ tryConvert 1 "XYZ" "xyz" = some 1 :=
  ⟨rfl, rfl⟩

/-- C9 (amended): for a non-whitespace alias, self-conversion is the exact
identity (also for aliases unknown to the catalog); after trimming, two
case-insensitively equal aliases unknown to the catalog also pass the value
through unchanged; and two case-insensitively distinct aliases fail
whenever no category table holds both — in particular when either alias is
unknown or the two belong to different categories. -/
theorem try_convert_identity_and_failure :
    (∀ (v : ℚ) (a : String), isNullOrWhiteSpace a = false → tryConvert v a a = some v)
  ∧ (∀ (v : ℚ) (a b : String), isNullOrWhiteSpace a = false →
      isNullOrWhiteSpace b = false → noCommonCategory (trimStr a) (trimStr a) →
      keyEq (trimStr a) (trimStr b) = true → tryConvert v a b = some v)
  ∧ (∀ (v : ℚ) (a b : String), isNullOrWhiteSpace a = false →
      isNullOrWhiteSpace b = false → keyEq (trimStr a) (trimStr b) = false →
      noCommonCategory (trimStr a) (trimStr b) → tryConvert v a b = none) := by
  refine ⟨?_, ?_, ?_⟩
  · intro v a ha
    unfold tryConvert
    rw [if_neg (by simp [ha])]
    refine orElse_step_self _ _ (catConvert_self _ _ v _ (fun u => by simp [linearAs])) ?_
    refine orElse_step_self _ _ (catConvert_self _ _ v _ (fun u => by simp [linearAs])) ?_
    refine orElse_step_self _ _ (catConvert_self _ _ v _ (fun u => by simp [linearAs])) ?_
    refine orElse_step_self _ _ (catConvert_self _ _ v _ (fun u => by simp [temperatureAs])) ?_
    refine orElse_step_self _ _ (catConvert_self _ _ v _ (fun u => by simp [linearAs])) ?_
    refine orElse_step_self _ _ (catConvert_self _ _ v _ (fun u => by simp [linearAs])) ?_
    refine orElse_step_self _ _ (catConvert_self _ _ v _ (fun u => by simp [linearAs])) ?_
    refine orElse_step_self _ _ (catConvert_self _ _ v _ (fun u => by simp [linearAs])) ?_
    refine orElse_step_self _ _ (catConvert_self _ _ v _ (fun u => by simp [linearAs])) ?_
    refine orElse_step_self _ _ (catConvert_self _ _ v _ (fun u => by simp [linearAs])) ?_
    refine orElse_step_self _ _ (catConvert_self _ _ v _ (fun u => by simp [linearAs])) ?_
    refine orElse_step_self _ _ (catConvert_self _ _ v _ (fun u => by simp [linearAs])) ?_
    simp [keyEq]
  · intro v a b ha hb hno hkey
    obtain ⟨h1, h2, h3, h4, h5, h6, h7, h8, h9, h10, h11, h12⟩ := hno
    simp only [tryConvert, ha, hb, Bool.or_self, Bool.false_eq_true, if_false,
      catConvert_none _ _ v _ _ (Or.inl (h1.elim id id)),
      catConvert_none _ _ v _ _ (Or.inl (h2.elim id id)),
      catConvert_none _ _ v _ _ (Or.inl (h3.elim id id)),
      catConvert_none _ _ v _ _ (Or.inl (h4.elim id id)),
      catConvert_none _ _ v _ _ (Or.inl (h5.elim id id)),
      catConvert_none _ _ v _ _ (Or.inl (h6.elim id id)),
      catConvert_none _ _ v _ _ (Or.inl (h7.elim id id)),
      catConvert_none _ _ v _ _ (Or.inl (h8.elim id id)),
      catConvert_none _ _ v _ _ (Or.inl (h9.elim id id)),
      catConvert_none _ _ v _ _ (Or.inl (h10.elim id id)),
      catConvert_none _ _ v _ _ (Or.inl (h11.elim id id)),
      catConvert_none _ _ v _ _ (Or.inl (h12.elim id id)),
      Option.orElse, hkey, if_true]
  · intro v a b ha hb hkey hno
    obtain ⟨h1, h2, h3, h4, h5, h6, h7, h8, h9, h10, h11, h12⟩ := hno
    simp only [tryConvert, ha, hb, Bool.or_self, Bool.false_eq_true, if_false,
      catConvert_none _ _ v _ _ h1, catConvert_none _ _ v _ _ h2,
      catConvert_none _ _ v _ _ h3, catConvert_none _ _ v _ _ h4,
      catConvert_none _ _ v _ _ h5, catConvert_none _ _ v _ _ h6,
      catConvert_none _ _ v _ _ h7, catConvert_none _ _ v _ _ h8,
      catConvert_none _ _ v _ _ h9, catConvert_none _ _ v _ _ h10,
      catConvert_none _ _ v _ _ h11, catConvert_none _ _ v _ _ h12,
      Option.orElse, hkey, Bool.false_eq_true, if_false]

/-- A lookup skips a head entry whose key does not match. -/
theorem lookupCI_cons_of_neg {α : Type} (p : String × α) (l : List (String × α))
    (k : String) (hp : keyEq p.1 k = false) : lookupCI (p :: l) k = lookupCI l k := by
  unfold lookupCI
  rw [List.find?_cons_of_neg _ (by simp [hp])]

/-- Looking up the key just inserted finds the inserted value. -/
theorem lookupCI_insertCI {α : Type} (l : List (String × α)) (k : String) (v : α) :
    lookupCI (insertCI l k v) k = some v := by
  induction l with
  | nil => simp [insertCI, lookupCI, List.find?, keyEq]
  | cons p l ih =>
    by_cases hp : keyEq p.1 k
    · have hfind : (p :: l).find? (fun z => keyEq z.1 k) = some p :=
        List.find?_cons_of_pos _ hp
      have hins : insertCI (p :: l) k v =
          (p.1, v) :: l.map (fun z => if keyEq z.1 k then (z.1, v) else z) := by
        simp only [insertCI, hfind, Option.isSome_some, if_true, List.map_cons, if_pos hp]
      rw [hins]
      unfold lookupCI
      simp [List.find?_cons, hp]
    · have hpf : keyEq p.1 k = false := by simpa using hp
      have hcond : ((p :: l).find? (fun z => keyEq z.1 k)).isSome =
          (l.find? (fun z => keyEq z.1 k)).isSome := by
        rw [List.find?_cons_of_neg _ (by simp [hpf])]
      have hins : insertCI (p :: l) k v = p :: insertCI l k v := by
        unfold insertCI
        rw [hcond]
        by_cases hl : (l.find? (fun z => keyEq z.1 k)).isSome = true
        · rw [if_pos hl, if_pos hl, List.map_cons, if_neg hp]
        · rw [if_neg hl, if_neg hl, List.cons_append]
      rw [hins, lookupCI_cons_of_neg _ _ _ hpf]
      exact ih

/-- Appending one more override and merging applies `AddOrReplace` last. -/
theorem mergeConstants_append_one (base ovs : List Constant) (c : Constant) :
    mergeConstants base (ovs ++ [c]) = addOrReplace (mergeConstants base ovs) c := by
  simp [mergeConstants, List.foldl_append]

/-- C1: after a successful parse and lookup construction, the orchestrator
runs the six semantic checks in source order and reports the first failure:
no later check's message pre-empts an earlier one, every emitted message is
the catalogued text for a witnessing symbol, the constants check runs
against the merge of predefined constants with the request overrides
(overrides winning on normalized id collision), and the pipeline returns
exactly the first failing check's message. -/
theorem semantic_check_order :
    (∀ (u : SymbolUsage) (L : MeasuredLookup) (base ovs : List Constant),
        semanticChecks u L base ovs = none ↔
          (checkUndefinedVariable u L = none ∧ checkScalarIndexed u L = none ∧
           checkMixedIndex u = none ∧ checkVectorNoIndex u L = none ∧
           checkUndefinedConstant u (mergeConstants base ovs) = none ∧
           checkUnitSuffixed u L = none))
  ∧ (∀ (u : SymbolUsage) (L : MeasuredLookup) (base ovs : List Constant) (e : String),
        checkUndefinedVariable u L = some e → semanticChecks u L base ovs = some e)
  ∧ (∀ (u : SymbolUsage) (L : MeasuredLookup) (base ovs : List Constant) (e : String),
        checkUndefinedVariable u L = none → checkScalarIndexed u L = some e →
        semanticChecks u L base ovs = some e)
  ∧ (∀ (u : SymbolUsage) (L : MeasuredLookup) (base ovs : List Constant) (e : String),
        checkUndefinedVariable u L = none → checkScalarIndexed u L = none →
        checkMixedIndex u = some e → semanticChecks u L base ovs = some e)
  ∧ (∀ (u : SymbolUsage) (L : MeasuredLookup) (base ovs : List Constant) (e : String),
        checkUndefinedVariable u L = none → checkScalarIndexed u L = none →
        checkMixedIndex u = none → checkVectorNoIndex u L = some e →
        semanticChecks u L base ovs = some e)
  ∧ (∀ (u : SymbolUsage) (L : MeasuredLookup) (base ovs : List Constant) (e : String),
        checkUndefinedVariable u L = none → checkScalarIndexed u L = none →
        checkMixedIndex u = none → checkVectorNoIndex u L = none →
        checkUndefinedConstant u (mergeConstants base ovs) = some e →
        semanticChecks u L base ovs = some e)
  ∧ (∀ (u : SymbolUsage) (L : MeasuredLookup) (base ovs : List Constant) (e : String),
        checkUndefinedVariable u L = none → checkScalarIndexed u L = none →
        checkMixedIndex u = none → checkVectorNoIndex u L = none →
        checkUndefinedConstant u (mergeConstants base ovs) = none →
        checkUnitSuffixed u L = some e → semanticChecks u L base ovs = some e)
  ∧ (∀ (u : SymbolUsage) (L : MeasuredLookup) (e : String),
        checkUndefinedVariable u L = some e →
        ∃ v, v ∈ u.vars ∧ lookupCI L v = none ∧ e = "Undefined variable: $" ++ v)
  ∧ (∀ (u : SymbolUsage) (L : MeasuredLookup) (e : String),
        checkScalarIndexed u L = some e →
        ∃ v, v ∈ u.varsWithIndex ∧
          e = "Variable '" ++ v ++ "' is scalar but is used with an index.")
  ∧ (∀ (u : SymbolUsage) (e : String),
        checkMixedIndex u = some e →
        ∃ v, v ∈ u.varsWithIndex ∧ u.varsWithoutIndex.any (fun w => keyEq w v) = true ∧
          e = "Variable '" ++ v ++ "' is used both with and without an index.")
  ∧ (∀ (u : SymbolUsage) (L : MeasuredLookup) (e : String),
        checkVectorNoIndex u L = some e →
        ∃ v, v ∈ u.varsWithoutIndex ∧
          e = "Variable '" ++ v ++ "' is non-scalar. Use an index like '$" ++ v ++ "[i]'.")
  ∧ (∀ (u : SymbolUsage) (C : ConstantLookup) (e : String),
        checkUndefinedConstant u C = some e →
        ∃ c, c ∈ u.consts ∧ lookupCI C c = none ∧ e = "Undefined constant: #" ++ c)
  ∧ (∀ (u : SymbolUsage) (L : MeasuredLookup) (e : String),
        checkUnitSuffixed u L = some e →
        ∃ v, v ∈ u.varsWithUnit ∧
          e = "Variable '" ++ v ++ "' has no unit defined but is used with a unit suffix.")
  ∧ (∀ (base ovs : List Constant) (c : Constant), normalizeConstantId c.id ≠ "#" →
        lookupCI (mergeConstants base (ovs ++ [c])) (dropHashes (normalizeConstantId c.id)) =
          some { id := normalizeConstantId c.id, nameField := c.nameField, value := c.value })
  ∧ (∀ (input : String) (u : SymbolUsage) (mvs : List MeasuredValue)
        (base ovs : List Constant) (L : MeasuredLookup) (e : String) (ev : Except String D),
        buildMeasuredLookup mvs = .ok L → semanticChecks u L base ovs = some e →
        runPipeline input u mvs base ovs ev =
          { isValid := false, error := some e, result := none,
            evaluatedFormula := none, source := "Backend" }) := by
  refine ⟨?_, ?_, ?_, ?_, ?_, ?_, ?_, ?_, ?_, ?_, ?_, ?_, ?_, ?_, ?_⟩
  · intro u L base ovs
    unfold semanticChecks
    cases h1 : checkUndefinedVariable u L
    · cases h2 : checkScalarIndexed u L
      · cases h3 : checkMixedIndex u
        · cases h4 : checkVectorNoIndex u L
          · cases h5 : checkUndefinedConstant u (mergeConstants base ovs)
            · simp
            · simp
          · simp
        · simp
      · simp
    · simp
  · intro u L base ovs e h1
    unfold semanticChecks
    rw [h1]
  · intro u L base ovs e h1 h2
    unfold semanticChecks
    rw [h1, h2]
  · intro u L base ovs e h1 h2 h3
    unfold semanticChecks
    rw [h1, h2, h3]
  · intro u L base ovs e h1 h2 h3 h4
    unfold semanticChecks
    rw [h1, h2, h3, h4]
  · intro u L base ovs e h1 h2 h3 h4 h5
    unfold semanticChecks
    rw [h1, h2, h3, h4, h5]
  · intro u L base ovs e h1 h2 h3 h4 h5 h6
    unfold semanticChecks
    rw [h1, h2, h3, h4, h5, h6]
  · intro u L e h
    obtain ⟨v, hv, hp, he⟩ := find_map_eq_some h
    exact ⟨v, hv, Option.isNone_iff_eq_none.mp hp, he⟩
  · intro u L e h
    obtain ⟨v, hv, _, he⟩ := find_map_eq_some h
    exact ⟨v, hv, he⟩
  · intro u e h
    obtain ⟨v, hv, hp, he⟩ := find_map_eq_some h
    exact ⟨v, hv, hp, he⟩
  · intro u L e h
    obtain ⟨v, hv, _, he⟩ := find_map_eq_some h
    exact ⟨v, hv, he⟩
  · intro u C e h
    obtain ⟨c, hc, hp, he⟩ := find_map_eq_some h
    exact ⟨c, hc, Option.isNone_iff_eq_none.mp hp, he⟩
  · intro u L e h
    obtain ⟨v, hv, _, he⟩ := find_map_eq_some h
    exact ⟨v, hv, he⟩
  · intro base ovs c hne
    rw [mergeConstants_append_one]
    unfold addOrReplace
    rw [if_neg hne]
    exact lookupCI_insertCI _ _ _
  · intro input u mvs base ovs L e ev hL hsem
    simp [runPipeline, hL, hsem]

end FormulaValidator
